import Mathlib

/-
Verification of the Java classfile unpacking library (a javap-like
classfile decoder written in Python 2) against its specification.

The development shallowly embeds the library's data model and operations:

* Python byte strings / buffers / streams are `List Nat` of byte values;
  Python unicode strings are `List Nat` of code points.
* The `Unpacker` cursor is explicit state passing: every parsing function
  takes the remaining byte list and returns the parsed value together
  with the bytes left over, inside `Except PyErr`.
* Python exceptions are the `PyErr` inductive; fallible operations
  return `Except PyErr α`.
* IEEE-754 float payloads (CONST_Float / CONST_Double) are kept as their
  raw big-endian bit patterns; no claim inspects float semantics.
* Unbounded Python recursion/loops (constant dereferencing, the
  descriptor tokenizer on ill-formed input) are embedded with explicit
  fuel; fuel exhaustion is the distinguished errors
  `PyErr.recursionError` / `PyErr.nonTermination`, corresponding to
  Python's RecursionError respectively a non-terminating loop.  The fuel
  bounds are generous enough that every terminating Python execution is
  reproduced exactly.
-/

/-- Code point of a character, used to write Python strings as `List Nat`. -/
def ch (c : Char) : Nat := c.toNat

/-- The list of code points of a string literal (Python unicode as `List Nat`). -/
def strCodes (s : String) : List Nat := s.data.map Char.toNat

/-- Helper for `pyFind`: index of the first occurrence of `c`, counting from `k`. -/
def pyFindAux : List Nat → Nat → Nat → Int
| [], _, _ => -1
| x :: xs, c, k => if x = c then Int.ofNat k else pyFindAux xs c (k + 1)

/-- Python `s.find(c)`: the index of the first occurrence of `c` in `s`, or -1. -/
def pyFind (s : List Nat) (c : Nat) : Int := pyFindAux s c 0

/-- The shapes appearing in the struct format strings used by the library
(">B", ">H", ">I", ">i", ">q", ">f", ">d" and repetitions). -/
inductive FmtItem
| u8
| u16
| u32
| i32
| i64
| f32
| f64
deriving DecidableEq

/-- The Python exceptions that the library can raise, as a sum type. -/
inductive PyErr
| typeError (msg : String)
| unpackError (fmt : Option (List FmtItem)) (wanted present : Nat)
| exception (msg : String)
| unimplemented (msg : String)
| unimplementedConst (t : Option Nat)
| indexError
| valueError (msg : String)
| unicodeDecodeError
| attributeError
| recursionError
| nonTermination
deriving DecidableEq

/-- Python list indexing `l[i]` with an `int` index: negative indices count
from the end, out-of-range indices raise IndexError. -/
def pyIndex (l : List α) (i : Int) : Except PyErr α :=
  if 0 ≤ i then
    match l.get? i.toNat with
    | some x => .ok x
    | none => .error PyErr.indexError
  else
    if (-i).toNat ≤ l.length then
      match l.get? (l.length - (-i).toNat) with
      | some x => .ok x
      | none => .error PyErr.indexError
    else .error PyErr.indexError

/-- Python `l[i]` for a known nonnegative index. -/
def pyGet (l : List α) (i : Nat) : Except PyErr α :=
  match l.get? i with
  | some x => .ok x
  | none => .error PyErr.indexError

/-- Python `l[-1]`: the last element, IndexError when empty. -/
def pyLast (l : List α) : Except PyErr α :=
  match l.getLast? with
  | some x => .ok x
  | none => .error PyErr.indexError

/-- Python slice `s[1:-1]`: drop the first and last elements. -/
def pySlice1m1 (s : List α) : List α := (s.drop 1).dropLast

/-- Python `sep.join(xs)`. -/
def listIntercalate (sep : List Nat) : List (List Nat) → List Nat
| [] => []
| [x] => x
| x :: y :: rest => x ++ sep ++ listIntercalate sep (y :: rest)

/-- Byte size of one format item, as `struct.calcsize` computes it. -/
def itemSize : FmtItem → Nat
| .u8 => 1
| .u16 => 2
| .u32 => 4
| .i32 => 4
| .i64 => 8
| .f32 => 4
| .f64 => 8

/-- Total byte size of a format. -/
def fmtSize (f : List FmtItem) : Nat := (f.map itemSize).sum

/-- Big-endian value of a byte list. -/
def beVal (bs : List Nat) : Nat := bs.foldl (fun a b => a * 256 + b) 0

/-- Two's-complement reading of a `w`-bit big-endian value. -/
def toSigned (w : Nat) (n : Nat) : Int :=
  if n < 2 ^ (w - 1) then Int.ofNat n else Int.ofNat n - Int.ofNat (2 ^ w)

/-- Decode a single format item from its bytes.  Unsigned fields give their
big-endian value, signed fields two's complement; float fields keep their
raw bit pattern (no claim depends on IEEE semantics). -/
def decodeItem (it : FmtItem) (bs : List Nat) : Int :=
  match it with
  | .u8 => Int.ofNat (beVal bs)
  | .u16 => Int.ofNat (beVal bs)
  | .u32 => Int.ofNat (beVal bs)
  | .i32 => toSigned 32 (beVal bs)
  | .i64 => toSigned 64 (beVal bs)
  | .f32 => Int.ofNat (beVal bs)
  | .f64 => Int.ofNat (beVal bs)

/-- Decode a list of format items from a buffer, consuming bytes in order. -/
def decodeItems : List FmtItem → List Nat → List Int
| [], _ => []
| it :: rest, bs => decodeItem it (bs.take (itemSize it)) :: decodeItems rest (bs.drop (itemSize it))

/-- Embeds `UnpackException.__init__` (source lines 94-104).  The constructor
assigns the `format`, `bytes_wanted` and `bytes_present` attributes, and then
calls `Exception.__init__` with the formatted message string in the position
of `self` (the `self` argument is missing in the source).  In Python 2 that
descriptor call raises `TypeError: descriptor '__init__' requires a
'exceptions.Exception' object but received a 'str'`, so the partially
constructed UnpackException is discarded and the error that actually escapes
every `raise UnpackException(...)` site is this TypeError. -/
def unpackExceptionRaise (_fmt : Option (List FmtItem)) (_wanted _present : Nat) : PyErr :=
  PyErr.typeError "descriptor init of Exception requires an Exception instance, not str"

/-- Embeds `Unpacker.unpack` (source lines 1740-1753): read `fmtSize fmt`
bytes from the stream; if fewer are available, raise (see
`unpackExceptionRaise`); otherwise decode the fields. -/
def unpackFmt (fmt : List FmtItem) (s : List Nat) : Except PyErr (List Int × List Nat) :=
  let size := fmtSize fmt
  let buff := s.take size
  if buff.length < size then .error (unpackExceptionRaise (some fmt) size buff.length)
  else .ok (decodeItems fmt buff, s.drop size)

/-- Embeds `Unpacker.read` (source lines 1789-1797): return the next `count`
bytes, raising (see `unpackExceptionRaise`, with format None) when fewer
are available. -/
def readN (count : Nat) (s : List Nat) : Except PyErr (List Nat × List Nat) :=
  let buff := s.take count
  if buff.length < count then .error (unpackExceptionRaise none count buff.length)
  else .ok (buff, s.drop count)

/-- Unpack a single-field format and destructure the 1-tuple. -/
def unpack1 (it : FmtItem) (s : List Nat) : Except PyErr (Int × List Nat) := do
  let (vs, s') ← unpackFmt [it] s
  match vs with
  | [v] => .ok (v, s')
  | _ => .error (PyErr.valueError "struct")

/-- Python `(count,) = unpacker.unpack(">H")`, with the count as a Nat. -/
def unpack16 (s : List Nat) : Except PyErr (Nat × List Nat) := do
  let (v, s') ← unpack1 FmtItem.u16 s
  .ok (v.toNat, s')

/-- Python `(b,) = unpacker.unpack(">B")`, with the byte as a Nat. -/
def unpack8 (s : List Nat) : Except PyErr (Nat × List Nat) := do
  let (v, s') ← unpack1 FmtItem.u8 s
  .ok (v.toNat, s')

/-- Loop of `Unpacker._unpack_array` (source lines 1756-1758). -/
def unpackArrayLoop (fmt : List FmtItem) : Nat → List Nat → Except PyErr (List (List Int) × List Nat)
| 0, s => .ok ([], s)
| n + 1, s => do
  let (v, s') ← unpackFmt fmt s
  let (vs, s'') ← unpackArrayLoop fmt n s'
  .ok (v :: vs, s'')

/-- Embeds `Unpacker.unpack_array` (source lines 1761-1767): a u16 count
followed by that many records of `fmt`. -/
def unpack_array (fmt : List FmtItem) (s : List Nat) : Except PyErr (List (List Int) × List Nat) := do
  let (count, s') ← unpack16 s
  unpackArrayLoop fmt count s'

/-- Is `b` a UTF-8 continuation byte (0x80..0xBF)? -/
def isCont (b : Nat) : Bool := 0x80 ≤ b && b ≤ 0xBF

/-- Code point of a two-byte UTF-8 sequence. -/
def cp2 (b c : Nat) : Nat := (b - 0xC0) * 0x40 + (c - 0x80)

/-- Code point of a three-byte UTF-8 sequence. -/
def cp3 (b c d : Nat) : Nat := (b - 0xE0) * 0x1000 + (c - 0x80) * 0x40 + (d - 0x80)

/-- Code point of a four-byte UTF-8 sequence. -/
def cp4 (b c d e : Nat) : Nat :=
  (b - 0xF0) * 0x40000 + (c - 0x80) * 0x1000 + (d - 0x80) * 0x40 + (e - 0x80)

/-- One step of the Python 2 strict UTF-8 decoder: the next code point and
the number of bytes it consumes, or `none` on invalid input.  Overlong
sequences (in particular 0xC0 0x80) and values beyond U+10FFFF are
rejected; surrogate code points are accepted, as CPython 2's codec does. -/
def utf8Step : List Nat → Option (Nat × Nat)
| [] => none
| b :: rest =>
  if b ≤ 0x7F then some (b, 1)
  else if b < 0xC2 then none
  else if b ≤ 0xDF then
    match rest with
    | c :: _ => if isCont c then some (cp2 b c, 2) else none
    | [] => none
  else if b ≤ 0xEF then
    match rest with
    | c :: d :: _ =>
      if (if b = 0xE0 then 0xA0 ≤ c && c ≤ 0xBF else isCont c) && isCont d
      then some (cp3 b c d, 3) else none
    | _ => none
  else if b ≤ 0xF4 then
    match rest with
    | c :: d :: e :: _ =>
      if (if b = 0xF0 then 0x90 ≤ c && c ≤ 0xBF
          else if b = 0xF4 then 0x80 ≤ c && c ≤ 0x8F
          else isCont c) && isCont d && isCont e
      then some (cp4 b c d e, 4) else none
    | _ => none
  else none

/-- Fueled loop of the strict UTF-8 decoder.  Every step consumes at least
one byte, so fuel equal to the byte count never runs out. -/
def utf8DecodeLoop : Nat → List Nat → Option (List Nat)
| _, [] => some []
| 0, _ :: _ => none
| fuel + 1, l => do
  let (cp, k) ← utf8Step l
  let cps ← utf8DecodeLoop fuel (l.drop k)
  some (cp :: cps)

/-- Python 2 `bytes.decode("utf8")` (strict): the decoded code points, or
`none` when a UnicodeDecodeError would be raised. -/
def pyUtf8Decode (l : List Nat) : Option (List Nat) := utf8DecodeLoop l.length l

/-- Python `val.replace("\xC0\x80", "\x00")`: substitute every (leftmost,
non-overlapping) occurrence of the byte pair 0xC0 0x80 by a single 0x00. -/
def replaceC080 : List Nat → List Nat
| [] => []
| [b] => [b]
| b :: c :: rest =>
  if b = 0xC0 && c = 0x80 then 0 :: replaceC080 rest
  else b :: replaceC080 (c :: rest)

/-- Embeds the Utf8 decoding policy of `_unpack_const_item` (source lines
1510-1515): first attempt a strict UTF-8 decode of the payload; on failure
substitute 0xC0 0x80 by 0x00 and retry; a second failure escapes as
UnicodeDecodeError. -/
def utf8ConstDecode (val : List Nat) : Except PyErr (List Nat) :=
  match pyUtf8Decode val with
  | some u => .ok u
  | none =>
    match pyUtf8Decode (replaceC080 val) with
    | some u => .ok u
    | none => .error PyErr.unicodeDecodeError

/-- Constant-pool entry payloads as stored by `_unpack_const_item`:
a decoded string for Utf8, an int for Integer/Long, raw IEEE bits for
Float/Double, a pool index for Class/String, and an index pair for the
reference and name-and-type entries. -/
inductive CVal
| s (cs : List Nat)
| i (z : Int)
| fbits (n : Int)
| dbits (n : Int)
| idx (n : Int)
| pair (a b : Int)
deriving DecidableEq

/-- One slot of `JavaConstantPool.consts`: the Python pair `(type, value)`,
where both components are None for the index-0 sentinel and for the slot
following a Long or Double entry. -/
abbrev Slot := Option Nat × Option CVal

/-- The dereferenced Python values produced by `deref_const`: unicode
strings, ints, floats (kept as raw bits) and 2-tuples. -/
inductive PyVal
| str (cs : List Nat)
| int (z : Int)
| floatBits (n : Int)
| doubleBits (n : Int)
| tup2 (a b : PyVal)
deriving DecidableEq

/-- Embeds `JavaConstantPool` (its `consts` tuple). -/
structure JavaConstantPool where
  consts : List Slot
deriving DecidableEq

/-- Embeds `_unpack_const_item` (source lines 1500-1541): a 1-byte tag
followed by the tag-specific payload. -/
def unpackConstItem (s : List Nat) : Except PyErr ((Nat × CVal) × List Nat) := do
  let (tc, s) ← unpack8 s
  if tc = 1 then do
    let (slen, s) ← unpack16 s
    let (bytes, s) ← readN slen s
    let u ← utf8ConstDecode bytes
    .ok ((1, CVal.s u), s)
  else if tc = 3 then do
    let (v, s) ← unpack1 FmtItem.i32 s
    .ok ((3, CVal.i v), s)
  else if tc = 4 then do
    let (v, s) ← unpack1 FmtItem.f32 s
    .ok ((4, CVal.fbits v), s)
  else if tc = 5 then do
    let (v, s) ← unpack1 FmtItem.i64 s
    .ok ((5, CVal.i v), s)
  else if tc = 6 then do
    let (v, s) ← unpack1 FmtItem.f64 s
    .ok ((6, CVal.dbits v), s)
  else if tc = 7 || tc = 8 then do
    let (v, s) ← unpack1 FmtItem.u16 s
    .ok ((tc, CVal.idx v), s)
  else if tc = 9 || tc = 10 || tc = 11 || tc = 12 || tc = 13 then do
    let (vs, s) ← unpackFmt [FmtItem.u16, FmtItem.u16] s
    match vs with
    | [a, b] => .ok ((tc, CVal.pair a b), s)
    | _ => .error (PyErr.valueError "struct")
  else .error (PyErr.unimplemented "unknown constant type")

/-- The item loop of `JavaConstantPool.unpack` (source lines 145-159),
including the `hackpass` handling of Long/Double double slots.  The third
component of the result counts the parsed constant-item records; each such
record consumes exactly one tag byte, so it is also the number of tag
bytes consumed. -/
def cpoolLoop : Nat → Bool → List Nat → Except PyErr (List Slot × List Nat × Nat)
| 0, _, s => .ok ([], s, 0)
| n + 1, hp, s =>
  if hp then do
    let (items, s', tags) ← cpoolLoop n false s
    .ok ((none, none) :: items, s', tags)
  else do
    let ((t, v), s1) ← unpackConstItem s
    let (items, s', tags) ← cpoolLoop n (t == 5 || t == 6) s1
    .ok ((some t, some v) :: items, s', tags + 1)

/-- Embeds `JavaConstantPool.unpack` (source lines 128-161): read the u16
count, put the `(None, None)` sentinel at index 0, then run the item loop
`count - 1` times.  Also exposes as the third result component the number
of constant-item records (equivalently tag bytes) consumed. -/
def cpoolUnpackCount (s : List Nat) : Except PyErr (JavaConstantPool × List Nat × Nat) := do
  let (count, s) ← unpack16 s
  let (items, s', tags) ← cpoolLoop (count - 1) false s
  .ok (⟨(none, none) :: items⟩, s', tags)

/-- `JavaConstantPool.unpack` without the instrumentation counter. -/
def cpoolUnpack (s : List Nat) : Except PyErr (JavaConstantPool × List Nat) := do
  let (p, s', _) ← cpoolUnpackCount s
  .ok (p, s')

/-- The raw stored value as the Python object it is: Utf8 entries hold a
unicode string, Integer/Long an int, Float/Double a float (raw bits here),
Class/String an int index, reference entries a pair of ints. -/
def pyValOfCVal : CVal → PyVal
| .s cs => .str cs
| .i z => .int z
| .fbits n => .floatBits n
| .dbits n => .doubleBits n
| .idx n => .int n
| .pair a b => .tup2 (.int a) (.int b)

/-- Tag membership test `t in (CONST_Utf8, CONST_Integer, CONST_Float,
CONST_Long, CONST_Double)`. -/
def knownScalarTag (t : Nat) : Bool := t == 1 || t == 3 || t == 4 || t == 5 || t == 6

/-- Tag membership test `t in (CONST_Class, CONST_String)`. -/
def refTag (t : Nat) : Bool := t == 7 || t == 8

/-- Tag membership test `t in (CONST_Fieldref, CONST_Methodref,
CONST_InterfaceMethodref, CONST_NameAndType, CONST_ModuleIdInfo)`. -/
def pairTag (t : Nat) : Bool := t == 9 || t == 10 || t == 11 || t == 12 || t == 13

/-- Embeds `JavaConstantPool.deref_const` (source lines 173-198) with
explicit fuel for the recursion on Class/String and compound entries.
Python's recursion is unbounded; fuel exhaustion is `recursionError`
(which Python reaches only on cyclic pools). -/
def derefConstFuel : Nat → JavaConstantPool → Int → Except PyErr PyVal
| 0, _, _ => .error PyErr.recursionError
| fuel + 1, pool, index =>
  if index = 0 then .error (PyErr.exception "Requested const 0")
  else
    match pyIndex pool.consts index with
    | .error e => .error e
    | .ok (t, v) =>
      match t with
      | some tv =>
        if knownScalarTag tv then
          match v with
          | some cv => .ok (pyValOfCVal cv)
          | none => .error (PyErr.typeError "missing value")
        else if refTag tv then
          match v with
          | some (CVal.idx n) => derefConstFuel fuel pool n
          | some (CVal.i z) => derefConstFuel fuel pool z
          | _ => .error (PyErr.typeError "bad reference value")
        else if pairTag tv then
          match v with
          | some (CVal.pair a b) => do
            let x ← derefConstFuel fuel pool a
            let y ← derefConstFuel fuel pool b
            .ok (PyVal.tup2 x y)
          | _ => .error (PyErr.typeError "bad pair value")
        else .error (PyErr.unimplementedConst (some tv))
      | none => .error (PyErr.unimplementedConst none)

/-- `deref_const` with its default fuel: any acyclic chain of references
resolves within `consts.length` hops, so only cyclic pools (where Python
hits RecursionError) exhaust the fuel. -/
def derefConst (pool : JavaConstantPool) (index : Int) : Except PyErr PyVal :=
  derefConstFuel (pool.consts.length + 1) pool index

/-- Embeds `JavaConstantPool.get_const` (source lines 165-169):
`self.consts[index]`. -/
def get_const (pool : JavaConstantPool) (index : Int) : Except PyErr Slot :=
  pyIndex pool.consts index

/-- Is `i` a reference to a populated entry with the given tag?  Used by the
cross-reference validity predicate; index 0 is the dummy slot and never a
proper reference target. -/
def tagAtI (consts : List Slot) (i : Int) : Option Nat :=
  if 1 ≤ i then
    match consts.get? i.toNat with
    | some (some t, _) => some t
    | _ => none
  else none

/-- Spec 3 invariant, per slot: "every cross-reference resolves to an entry
of the expected tag".  Class/String point at a Utf8 entry; the Fieldref /
Methodref / InterfaceMethodref pairs point at a Class and a NameAndType
entry; NameAndType and ModuleIdInfo point at two Utf8 entries; populated
slots carry a value. -/
def slotRefsOK (consts : List Slot) : Slot → Bool
| (none, _) => true
| (some _, none) => false
| (some 7, some (CVal.idx v)) => tagAtI consts v == some 1
| (some 7, some _) => false
| (some 8, some (CVal.idx v)) => tagAtI consts v == some 1
| (some 8, some _) => false
| (some 9, some (CVal.pair a b)) => tagAtI consts a == some 7 && tagAtI consts b == some 12
| (some 9, some _) => false
| (some 10, some (CVal.pair a b)) => tagAtI consts a == some 7 && tagAtI consts b == some 12
| (some 10, some _) => false
| (some 11, some (CVal.pair a b)) => tagAtI consts a == some 7 && tagAtI consts b == some 12
| (some 11, some _) => false
| (some 12, some (CVal.pair a b)) => tagAtI consts a == some 1 && tagAtI consts b == some 1
| (some 12, some _) => false
| (some 13, some (CVal.pair a b)) => tagAtI consts a == some 1 && tagAtI consts b == some 1
| (some 13, some _) => false
| (some _, some _) => true

/-- All cross-references of the pool are valid. -/
def crossRefsOK (consts : List Slot) : Bool := consts.all (slotRefsOK consts)

/-- The rendering of the value component of `_pretty_const_type_val`
(source lines 1545-1588).  Each constructor records the data of one
formatting branch; the actual string rendering (repr escaping for Utf8,
decimal formatting of ints and IEEE floats) is kept abstract, since no
claim observes it. -/
inductive PrettyOut
| utf8Repr (cs : List Nat)
| intFmt (z : Int)
| floatFmt (bits : Int)
| longFmt (z : Int)
| doubleFmt (bits : Int)
| refOne (kind : Nat) (n : Int)
| refDot (kind : Nat) (a b : Int)
| refColon (a b : Int)
| refAt (a b : Int)
deriving DecidableEq

/-- Embeds `_pretty_const_type_val` (source lines 1545-1588): the pretty
type name and the rendered value for a populated entry; unknown tags raise
Unimplemented. -/
def prettyConstTypeVal (t : Nat) (v : Option CVal) : Except PyErr (Option (List Nat) × Option PrettyOut) :=
  if t = 1 then
    match v with
    | some (CVal.s cs) => .ok (some (strCodes "Utf8"), some (PrettyOut.utf8Repr cs))
    | _ => .error (PyErr.typeError "repr")
  else if t = 3 then
    match v with
    | some (CVal.i z) => .ok (some (strCodes "int"), some (PrettyOut.intFmt z))
    | _ => .error (PyErr.typeError "format")
  else if t = 4 then
    match v with
    | some (CVal.fbits n) => .ok (some (strCodes "float"), some (PrettyOut.floatFmt n))
    | _ => .error (PyErr.typeError "format")
  else if t = 5 then
    match v with
    | some (CVal.i z) => .ok (some (strCodes "long"), some (PrettyOut.longFmt z))
    | _ => .error (PyErr.typeError "format")
  else if t = 6 then
    match v with
    | some (CVal.dbits n) => .ok (some (strCodes "double"), some (PrettyOut.doubleFmt n))
    | _ => .error (PyErr.typeError "format")
  else if t = 7 then
    match v with
    | some (CVal.idx n) => .ok (some (strCodes "class"), some (PrettyOut.refOne 7 n))
    | _ => .error (PyErr.typeError "format")
  else if t = 8 then
    match v with
    | some (CVal.idx n) => .ok (some (strCodes "String"), some (PrettyOut.refOne 8 n))
    | _ => .error (PyErr.typeError "format")
  else if t = 9 then
    match v with
    | some (CVal.pair a b) => .ok (some (strCodes "Field"), some (PrettyOut.refDot 9 a b))
    | _ => .error (PyErr.typeError "format")
  else if t = 10 then
    match v with
    | some (CVal.pair a b) => .ok (some (strCodes "Method"), some (PrettyOut.refDot 10 a b))
    | _ => .error (PyErr.typeError "format")
  else if t = 11 then
    match v with
    | some (CVal.pair a b) => .ok (some (strCodes "InterfaceMethod"), some (PrettyOut.refDot 11 a b))
    | _ => .error (PyErr.typeError "format")
  else if t = 12 then
    match v with
    | some (CVal.pair a b) => .ok (some (strCodes "NameAndType"), some (PrettyOut.refColon a b))
    | _ => .error (PyErr.typeError "format")
  else if t = 13 then
    match v with
    | some (CVal.pair a b) => .ok (some (strCodes "ModuleIdInfo"), some (PrettyOut.refAt a b))
    | _ => .error (PyErr.typeError "format")
  else .error (PyErr.unimplementedConst (some t))

/-- Embeds `JavaConstantPool.pretty_const` (source lines 226-236): the
`(None, None)` pair for sentinel slots, `_pretty_const_type_val` otherwise. -/
def pretty_const (pool : JavaConstantPool) (index : Int) : Except PyErr (Option (List Nat) × Option PrettyOut) := do
  let sl ← pyIndex pool.consts index
  match sl.1 with
  | none => .ok (none, none)
  | some t => prettyConstTypeVal t sl.2

/-- Embeds `_next_argsig` (source lines 1599-1615): one descriptor token
and the remaining buffer.  `s.find(x) + 1` is 0 when `x` is absent, in
which case Python returns the empty token and the unmoved buffer (and the
`_typeseq_iter` loop no longer makes progress); `s[:i]` / `buffer(buff, i)`
are `take` / `drop`. -/
def next_argsig : List Nat → Except PyErr (List Nat × List Nat)
| [] => .error PyErr.indexError
| c :: rest =>
  if c ∈ strCodes "VZBCSIJDF" then .ok ([c], rest)
  else if c = ch '[' then do
    let (d, buff) ← next_argsig rest
    .ok (c :: d, buff)
  else if c = ch 'L' then
    let s := c :: rest
    let i := (pyFind s (ch ';') + 1).toNat
    .ok (s.take i, s.drop i)
  else if c = ch '(' then
    let s := c :: rest
    let i := (pyFind s (ch ')') + 1).toNat
    .ok (s.take i, s.drop i)
  else .error (PyErr.unimplemented "next argsig")

/-- The `while buff:` loop of `_typeseq_iter` (source lines 1619-1623),
with fuel.  When `_next_argsig` returns an empty token the Python loop no
longer makes progress and never terminates; the fuel in `typeseq` is
`length + 1`, which only such non-terminating executions can exhaust
(signalled as `nonTermination`). -/
def typeseqLoop : Nat → List Nat → Except PyErr (List (List Nat))
| _, [] => .ok []
| 0, _ :: _ => .error PyErr.nonTermination
| fuel + 1, c :: rest => do
  let (t, buff2) ← next_argsig (c :: rest)
  let ts ← typeseqLoop fuel buff2
  .ok (t :: ts)

/-- Embeds `_typeseq` (source lines 1626-1627). -/
def typeseq (s : List Nat) : Except PyErr (List (List Nat)) :=
  typeseqLoop (s.length + 1) s

/-- Embeds `_pretty_class` (source lines 1669-1672): `s.replace("/", ".")`. -/
def prettyClass (cs : List Nat) : List Nat :=
  cs.map (fun c => if c = ch '/' then ch '.' else c)

/-- Python `s.replace` called on a dereferenced value: only unicode strings
have the method, anything else raises AttributeError. -/
def expectStr : PyVal → Except PyErr (List Nat)
| .str cs => .ok cs
| _ => .error PyErr.attributeError

/-- Python `str(x)` of a dereferenced value.  For unicode it is the same
code-point sequence (the library only ever does this to ASCII data); ints
render in decimal; the remaining shapes are not reached by any claim and
are embedded as an error. -/
def pyStrOfVal : PyVal → Except PyErr (List Nat)
| .str cs => .ok cs
| .int z => .ok (strCodes (toString z))
| _ => .error (PyErr.typeError "str")

/-- Embeds `_pretty_type` (source lines 1636-1665) with fuel for the
recursion into array element types and parenthesized argument lists.  The
wrapper `pretty_type` supplies fuel `length + 1`, which terminating Python
executions never exhaust since every recursive call is on a strictly
shorter string. -/
def prettyType : Nat → List Nat → Except PyErr (List Nat)
| 0, _ => .error PyErr.nonTermination
| fuel + 1, s =>
  match s with
  | [] => .error PyErr.indexError
  | tc :: _ =>
    if tc = ch '(' then do
      let ts ← typeseq (pySlice1m1 s)
      let ps ← ts.mapM (prettyType fuel)
      .ok (ch '(' :: listIntercalate [ch ','] ps ++ [ch ')'])
    else if tc = ch 'V' then .ok (strCodes "void")
    else if tc = ch 'Z' then .ok (strCodes "boolean")
    else if tc = ch 'C' then .ok (strCodes "char")
    else if tc = ch 'B' then .ok (strCodes "byte")
    else if tc = ch 'S' then .ok (strCodes "short")
    else if tc = ch 'I' then .ok (strCodes "int")
    else if tc = ch 'J' then .ok (strCodes "long")
    else if tc = ch 'D' then .ok (strCodes "double")
    else if tc = ch 'F' then .ok (strCodes "float")
    else if tc = ch 'T' then .ok (strCodes "generic " ++ s.drop 1)
    else if tc = ch 'L' then .ok (prettyClass (pySlice1m1 s))
    else if tc = ch '[' then do
      let r ← prettyType fuel (s.drop 1)
      .ok (r ++ [ch '[', ch ']'])
    else .error (PyErr.unimplemented "unknown type")

/-- `_pretty_type` at its default fuel. -/
def pretty_type (s : List Nat) : Except PyErr (List Nat) :=
  prettyType (s.length + 1) s

/-- Embeds `_pretty_typeseq` (source lines 1631-1632): tokenize, then
pretty-print each token. -/
def pretty_typeseq (s : List Nat) : Except PyErr (List (List Nat)) := do
  let ts ← typeseq s
  ts.mapM pretty_type

/-- The shared Methodref / InterfaceMethodref branch of
`pretty_deref_const` (source lines 264-274): `owner.name(args):ret`,
where the NameAndType's descriptor must tokenize into exactly an argument
group and a return type. -/
def prettyDerefMethodref (pool : JavaConstantPool) (a b : Int) : Except PyErr (List Nat) := do
  let cnv ← derefConst pool a
  let cn0 ← expectStr cnv
  let cn := prettyClass cn0
  let nt ← derefConst pool b
  match nt with
  | PyVal.tup2 nv tv => do
    let n ← pyStrOfVal nv
    let tstr ← pyStrOfVal tv
    let ps ← pretty_typeseq tstr
    match ps with
    | [args, ret] => .ok (cn ++ [ch '.'] ++ n ++ args ++ [ch ':'] ++ ret)
    | _ => .error (PyErr.valueError "unpack pair")
  | _ => .error (PyErr.valueError "unpack pair")

/-- Embeds `JavaConstantPool.pretty_deref_const` (source lines 240-291). -/
def pretty_deref_const (pool : JavaConstantPool) (index : Int) : Except PyErr (List Nat) := do
  let sl ← pyIndex pool.consts index
  match sl.1 with
  | some 8 => do
    match sl.2 with
    | some (CVal.idx n) => do
      let dv ← derefConst pool n
      pyStrOfVal dv
    | _ => .error (PyErr.typeError "bad reference value")
  | some 7 => do
    match sl.2 with
    | some (CVal.idx n) => do
      let dv ← derefConst pool n
      let cs ← expectStr dv
      .ok (prettyClass cs)
    | _ => .error (PyErr.typeError "bad reference value")
  | some 9 => do
    match sl.2 with
    | some (CVal.pair a b) => do
      let cnv ← derefConst pool a
      let cn0 ← expectStr cnv
      let cn := prettyClass cn0
      let nt ← derefConst pool b
      match nt with
      | PyVal.tup2 nv tv => do
        let n ← pyStrOfVal nv
        let tstr ← expectStr tv
        let pt ← pretty_type tstr
        .ok (cn ++ [ch '.'] ++ n ++ [ch ':'] ++ pt)
      | _ => .error (PyErr.valueError "unpack pair")
    | _ => .error (PyErr.typeError "bad pair value")
  | some 10 => do
    match sl.2 with
    | some (CVal.pair a b) => prettyDerefMethodref pool a b
    | _ => .error (PyErr.typeError "bad pair value")
  | some 11 => do
    match sl.2 with
    | some (CVal.pair a b) => prettyDerefMethodref pool a b
    | _ => .error (PyErr.typeError "bad pair value")
  | some 12 => do
    match sl.2 with
    | some (CVal.pair a b) => do
      let av ← derefConst pool a
      let bv ← derefConst pool b
      let a' ← pyStrOfVal av
      let bs ← pyStrOfVal bv
      let ps ← pretty_typeseq bs
      .ok (a' ++ [ch ':'] ++ ps.flatten)
    | _ => .error (PyErr.typeError "bad pair value")
  | some 13 => do
    match sl.2 with
    | some (CVal.pair a b) => do
      let av ← derefConst pool a
      let bv ← derefConst pool b
      let a' ← pyStrOfVal av
      let b' ← pyStrOfVal bv
      .ok (a' ++ [ch '@'] ++ b')
    | _ => .error (PyErr.typeError "bad pair value")
  | none => .ok []
  | some _t => .error (PyErr.unimplemented "No pretty for const type")

/-- Attribute tables: the Python dict from dereferenced attribute name to
payload byte slice, as an association list with last-write-wins update. -/
abbrev AttrTable := List (PyVal × List Nat)

/-- Python `d[k] = v`: replace the value of an existing key, else append. -/
def dictSet (d : AttrTable) (k : PyVal) (v : List Nat) : AttrTable :=
  if d.any (fun kv => kv.1 = k) then d.map (fun kv => if kv.1 = k then (k, v) else kv)
  else d ++ [(k, v)]

/-- Python `d.get(k, None)`. -/
def dictGet (d : AttrTable) (k : PyVal) : Option (List Nat) :=
  (d.find? (fun kv => kv.1 = k)).map (fun kv => kv.2)

/-- The entry loop of `JavaAttributes.unpack` (source lines 315-318): read
a u16 name index and u32 length, read that many payload bytes, then store
under the dereferenced name (Python evaluates the assignment's right-hand
side, the `read`, before the subscript key, the `deref_const`). -/
def attrsLoop (pool : JavaConstantPool) : Nat → AttrTable → List Nat → Except PyErr (AttrTable × List Nat)
| 0, d, s => .ok (d, s)
| n + 1, d, s => do
  let (vs, s) ← unpackFmt [FmtItem.u16, FmtItem.u32] s
  match vs with
  | [name, size] => do
    let (payload, s) ← readN size.toNat s
    let key ← derefConst pool name
    attrsLoop pool n (dictSet d key payload) s
  | _ => .error (PyErr.valueError "struct")

/-- Embeds `JavaAttributes.unpack` (source lines 307-318). -/
def attrsUnpack (pool : JavaConstantPool) (s : List Nat) : Except PyErr (AttrTable × List Nat) := do
  let (count, s) ← unpack16 s
  attrsLoop pool count [] s

/-- Embeds `JavaAttributes.get_attribute` (source lines 321-322). -/
def attrsGet (d : AttrTable) (name : String) : Option (List Nat) :=
  dictGet d (PyVal.str (strCodes name))

/-- Embeds `JavaMemberInfo` (a field or method of a class). -/
structure JavaMemberInfo where
  access_flags : Int
  name_ref : Int
  descriptor_ref : Int
  is_method : Bool
  attribs : AttrTable
deriving DecidableEq

/-- Embeds `JavaMemberInfo.unpack` (source lines 819-831): access flags,
name index and descriptor index (">HHH"), then the attribute table. -/
def memberUnpack (pool : JavaConstantPool) (is_method : Bool) (s : List Nat) : Except PyErr (JavaMemberInfo × List Nat) := do
  let (vs, s) ← unpackFmt [FmtItem.u16, FmtItem.u16, FmtItem.u16] s
  match vs with
  | [a, b, c] => do
    let (attrs, s) ← attrsUnpack pool s
    .ok ({ access_flags := a, name_ref := b, descriptor_ref := c,
           is_method := is_method, attribs := attrs }, s)
  | _ => .error (PyErr.valueError "struct")

/-- The instantiation loop of `Unpacker._unpack_objects` for members. -/
def membersLoop (pool : JavaConstantPool) (is_method : Bool) : Nat → List Nat → Except PyErr (List JavaMemberInfo × List Nat)
| 0, s => .ok ([], s)
| n + 1, s => do
  let (m, s) ← memberUnpack pool is_method s
  let (ms, s') ← membersLoop pool is_method n s
  .ok (m :: ms, s')

/-- `Unpacker.unpack_objects(JavaMemberInfo, ...)` (source lines 1777-1786):
a u16 count followed by that many member records. -/
def membersUnpack (pool : JavaConstantPool) (is_method : Bool) (s : List Nat) : Except PyErr (List JavaMemberInfo × List Nat) := do
  let (count, s) ← unpack16 s
  membersLoop pool is_method count s

/-- Embeds `JavaExceptionInfo` (an exception-table entry). -/
structure JavaExceptionInfo where
  start_pc : Int
  end_pc : Int
  handler_pc : Int
  catch_type_ref : Int
deriving DecidableEq

/-- The instantiation loop of `unpack_objects(JavaExceptionInfo, ...)`,
each record unpacked per `JavaExceptionInfo.unpack` (source lines
1373-1383, format ">HHHH"). -/
def excLoop : Nat → List Nat → Except PyErr (List JavaExceptionInfo × List Nat)
| 0, s => .ok ([], s)
| n + 1, s => do
  let (vs, s) ← unpackFmt [FmtItem.u16, FmtItem.u16, FmtItem.u16, FmtItem.u16] s
  match vs with
  | [a, b, c, d] => do
    let (es, s') ← excLoop n s
    .ok ({ start_pc := a, end_pc := b, handler_pc := c, catch_type_ref := d } :: es, s')
  | _ => .error (PyErr.valueError "struct")

/-- Embeds `JavaCodeInfo` (the Code attribute's model). -/
structure JavaCodeInfo where
  max_stack : Int
  max_locals : Int
  code : List Nat
  exceptions : List JavaExceptionInfo
  attribs : AttrTable
deriving DecidableEq

/-- Embeds `JavaCodeInfo.unpack` (source lines 1256-1269): max_stack,
max_locals, u32 code length and code bytes, the exception-handler table,
then the nested attribute table. -/
def codeInfoUnpack (pool : JavaConstantPool) (s : List Nat) : Except PyErr (JavaCodeInfo × List Nat) := do
  let (vs, s) ← unpackFmt [FmtItem.u16, FmtItem.u16, FmtItem.u32] s
  match vs with
  | [a, b, c] => do
    let (codebytes, s) ← readN c.toNat s
    let (ecount, s) ← unpack16 s
    let (excs, s) ← excLoop ecount s
    let (attrs, s) ← attrsUnpack pool s
    .ok ({ max_stack := a, max_locals := b, code := codebytes,
           exceptions := excs, attribs := attrs }, s)
  | _ => .error (PyErr.valueError "struct")

/-- Embeds `JavaCodeInfo.get_linenumbertable` (source lines 1273-1282):
the "LineNumberTable" attribute parsed as a u16-counted array of ">HH"
records, or the empty tuple when absent. -/
def get_linenumbertable (ci : JavaCodeInfo) : Except PyErr (List (List Int)) :=
  match attrsGet ci.attribs "LineNumberTable" with
  | none => .ok []
  | some buff => do
    let (rows, _) ← unpack_array [FmtItem.u16, FmtItem.u16] buff
    .ok rows

/-- The scan loop of `JavaCodeInfo.get_line_for_offset` (source lines
1335-1344).  Note that the `o < code_offset` branch of the source stores
the entry's offset `o` into `prev` (`prev = o`), not its line number. -/
def lineForOffsetLoop : Int → List (List Int) → Int → Except PyErr Int
| prev, [], _ => .ok prev
| prev, row :: rest, pc =>
  match row with
  | [o, l] =>
    if o < pc then lineForOffsetLoop o rest pc
    else if o = pc then .ok l
    else .ok prev
  | _ => .error (PyErr.valueError "unpack tuple")

/-- Embeds `JavaCodeInfo.get_line_for_offset` (source lines 1329-1344). -/
def get_line_for_offset (ci : JavaCodeInfo) (code_offset : Int) : Except PyErr Int := do
  let lnt ← get_linenumbertable ci
  lineForOffsetLoop (-1) lnt code_offset

/-- The class-file magic as the tuple of ints `(0xCA, 0xFE, 0xBA, 0xBE)`. -/
def JAVA_CLASS_MAGIC : List Int := [0xCA, 0xFE, 0xBA, 0xBE]

/-- The byte string `JAVA_CLASS_MAGIC_STR` = "\xca\xfe\xba\xbe". -/
def JAVA_CLASS_MAGIC_STR : List Nat := [0xCA, 0xFE, 0xBA, 0xBE]

/-- The format ">BBBB". -/
def fmtBBBB : List FmtItem := [FmtItem.u8, FmtItem.u8, FmtItem.u8, FmtItem.u8]

/-- Embeds `JavaClassInfo` (the decoded class file). -/
structure JavaClassInfo where
  magic : List Int
  version : List Int
  cpool : JavaConstantPool
  access_flags : Int
  this_ref : Int
  super_ref : Int
  interfaces : List Int
  fields : List JavaMemberInfo
  methods : List JavaMemberInfo
  attribs : AttrTable
deriving DecidableEq

/-- Embeds `JavaClassInfo.unpack` (source lines 359-406).  The magic
parameter models the tuple form (a str argument is converted to the same
tuple of byte values on source line 374); Python's `magic or ...` reads
from the stream when the argument is absent or an empty (falsy) tuple.
The version is the ">HH" pair reversed (minor, major read; major, minor
stored). -/
def classInfoUnpack (magicArg : Option (List Int)) (s : List Nat) : Except PyErr (JavaClassInfo × List Nat) := do
  let (magicv, s) ←
    match magicArg with
    | some m => if m.isEmpty then unpackFmt fmtBBBB s else pure (m, s)
    | none => unpackFmt fmtBBBB s
  if magicv ≠ JAVA_CLASS_MAGIC then .error (PyErr.exception "not a Java class file")
  else do
    let (vv, s) ← unpackFmt [FmtItem.u16, FmtItem.u16] s
    let (pool, s) ← cpoolUnpack s
    let (abc, s) ← unpackFmt [FmtItem.u16, FmtItem.u16, FmtItem.u16] s
    match abc with
    | [af, tr, sr] => do
      let (icount, s) ← unpack16 s
      let (ivals, s) ← unpackFmt (List.replicate icount FmtItem.u16) s
      let (fields, s) ← membersUnpack pool false s
      let (methods, s) ← membersUnpack pool true s
      let (attrs, s) ← attrsUnpack pool s
      .ok ({ magic := magicv, version := vv.reverse, cpool := pool,
             access_flags := af, this_ref := tr, super_ref := sr,
             interfaces := ivals, fields := fields, methods := methods,
             attribs := attrs }, s)
    | _ => .error (PyErr.valueError "struct")

/-- Embeds `unpack_class` (source lines 1846-1868): read the magic unless
it was passed in, compare it against `JAVA_CLASS_MAGIC`, then run
`JavaClassInfo.unpack` on the rest (passing the magic along so it is not
read twice).  On a magic mismatch the source does
`raise UnpackException("Not a Java class file")`, a single-argument call
of the three-parameter constructor, so the error that escapes is the
arity TypeError. -/
def unpack_class (data : List Nat) (magicArg : Option (List Int)) : Except PyErr JavaClassInfo := do
  let (magicv, s) ←
    match magicArg with
    | some m => if m.isEmpty then unpackFmt fmtBBBB data else pure (m, data)
    | none => unpackFmt fmtBBBB data
  if magicv ≠ JAVA_CLASS_MAGIC then .error (PyErr.typeError "init takes exactly 4 arguments (2 given)")
  else do
    let (o, _) ← classInfoUnpack (some magicv) s
    .ok o

/-- Embeds `is_class` (source lines 1816-1830): unpack ">BBBB" and compare
with `JAVA_CLASS_MAGIC`; any exception gives False. -/
def is_class (data : List Nat) : Bool :=
  match unpackFmt fmtBBBB data with
  | .ok (vals, _) => vals = JAVA_CLASS_MAGIC
  | .error _ => false

/-- Python `==` between a bool and a str: values of different, incomparable
types are never equal, so the comparison is always False. -/
def pyEqBoolStr (_b : Bool) (_s : List Nat) : Bool := false

/-- Embeds `is_class_file` (source lines 1834-1842) applied to the file's
contents: `c = is_class(fd.read(4))` (a bool), then
`return c == JAVA_CLASS_MAGIC_STR` — a bool compared against a str. -/
def is_class_file (contents : List Nat) : Bool :=
  pyEqBoolStr (is_class (contents.take 4)) JAVA_CLASS_MAGIC_STR

/-- Embeds `JavaClassInfo.pretty_this` (source lines 643-644):
`_pretty_class(deref_const(this_ref))`. -/
def pretty_this (cls : JavaClassInfo) : Except PyErr (List Nat) := do
  let dv ← derefConst cls.cpool cls.this_ref
  let cs ← expectStr dv
  .ok (prettyClass cs)

/-- Embeds `JavaMemberInfo.get_descriptor` (source lines 843-847). -/
def member_get_descriptor (pool : JavaConstantPool) (m : JavaMemberInfo) : Except PyErr (List Nat) := do
  let dv ← derefConst pool m.descriptor_ref
  pyStrOfVal dv

/-- Embeds `JavaMemberInfo.get_type_descriptor` (source lines 1050-1056):
`_typeseq(descriptor)[-1]`. -/
def member_get_type_descriptor (pool : JavaConstantPool) (m : JavaMemberInfo) : Except PyErr (List Nat) := do
  let ds ← member_get_descriptor pool m
  let tp ← typeseq ds
  pyLast tp

/-- Embeds `JavaMemberInfo.get_arg_type_descriptors` (source lines
1060-1072): for methods, `_typeseq(_typeseq(descriptor)[0][1:-1])`; the
empty tuple for fields. -/
def member_get_arg_type_descriptors (pool : JavaConstantPool) (m : JavaMemberInfo) : Except PyErr (List (List Nat)) := do
  if m.is_method = false then .ok []
  else do
    let ds ← member_get_descriptor pool m
    let tp ← typeseq ds
    let h ← pyGet tp 0
    typeseq (pySlice1m1 h)

/-- Embeds `JavaMemberInfo.pretty_type` (source lines 1076-1080). -/
def member_pretty_type (pool : JavaConstantPool) (m : JavaMemberInfo) : Except PyErr (List Nat) := do
  let td ← member_get_type_descriptor pool m
  pretty_type td

/-- Embeds `JavaMemberInfo.pretty_arg_types` (source lines 1084-1092). -/
def member_pretty_arg_types (pool : JavaConstantPool) (m : JavaMemberInfo) : Except PyErr (List (List Nat)) := do
  if m.is_method then do
    let ts ← member_get_arg_type_descriptors pool m
    ts.mapM pretty_type
  else .ok []

/-- Embeds `JavaMemberInfo.pretty_identifier` (source lines 1211-1220):
the member name, for methods with the parenthesized comma-joined pretty
argument types, then ":" and the pretty type. -/
def member_pretty_identifier (pool : JavaConstantPool) (m : JavaMemberInfo) : Except PyErr (List Nat) := do
  let nv ← derefConst pool m.name_ref
  let name ← pyStrOfVal nv
  let id ←
    if m.is_method then do
      let ats ← member_pretty_arg_types pool m
      pure (name ++ [ch '('] ++ listIntercalate [ch ','] ats ++ [ch ')'])
    else pure name
  let pt ← member_pretty_type pool m
  .ok (id ++ [ch ':'] ++ pt)

/-- Python truthiness of `access_flags & ACC_PUBLIC` in
`JavaMemberInfo.is_public` (source lines 851-855). -/
def member_is_public (m : JavaMemberInfo) : Bool := m.access_flags.toNat &&& 1 ≠ 0

/-- The member loop of `JavaClassInfo._get_provides` (source lines
682-688): yield `me.identifier` for each member that is public or when
private members were requested. -/
def providesMembers (pool : JavaConstantPool) (me : List Nat) (priv : Bool) : List JavaMemberInfo → Except PyErr (List (List Nat))
| [] => .ok []
| m :: rest =>
  if priv || member_is_public m then do
    let pid ← member_pretty_identifier pool m
    let restv ← providesMembers pool me priv rest
    .ok ((me ++ [ch '.'] ++ pid) :: restv)
  else providesMembers pool me priv rest

/-- Embeds `JavaClassInfo._get_provides` (source lines 678-688): the class
name itself, then the qualified identifiers of fields and methods. -/
def getProvidesList (cls : JavaClassInfo) (priv : Bool) : Except PyErr (List (List Nat)) := do
  let me ← pretty_this cls
  let fs ← providesMembers cls.cpool me priv cls.fields
  let ms ← providesMembers cls.cpool me priv cls.methods
  .ok (me :: (fs ++ ms))

/-- Embeds `JavaClassInfo.get_provides` with no ignore patterns (source
lines 725-739); Python materializes the generator into a set, whose
membership coincides with membership in this yield-ordered list. -/
def get_provides (cls : JavaClassInfo) (priv : Bool) : Except PyErr (List (List Nat)) :=
  getProvidesList cls priv

/-- The pool scan of `JavaClassInfo._get_requires` (source lines 697-721),
iterating over the indices produced by `JavaConstantPool.constants()`
(source lines 202-210, which also dereferences every visited entry).  For
Class / Fieldref / Methodref / InterfaceMethodref entries the pretty
dereferenced form is computed; a leading "[" makes the code peel the array
dimensions with `_next_argsig` and keep only object element types; a
result that is truthy and not among the class's own private provides is
yielded.  `requiresEntry` is the per-entry body computing the optional
pretty value for one pool index. -/
def requiresEntry (cls : JavaClassInfo) (i : Nat) (t : Nat) : Except PyErr (Option (List Nat)) :=
  if t = 7 || t = 9 || t = 10 || t = 11 then do
    let pv ← pretty_deref_const cls.cpool (Int.ofNat i)
    let c0 ← pyGet pv 0
    if c0 = ch '[' then do
      let (tok, _b) ← next_argsig pv
      let c1 ← pyGet tok 1
      if c1 = ch 'L' then do
        let pt ← pretty_type (tok.drop 1)
        pure (some pt)
      else pure none
    else pure (some pv)
  else pure none

/-- The index loop of `JavaClassInfo._get_requires`, yielding each entry
value that is truthy and not among the class's own private provides. -/
def requiresScan (cls : JavaClassInfo) (provided : List (List Nat)) : List Nat → Except PyErr (List (List Nat))
| [] => .ok []
| i :: rest =>
  match cls.cpool.consts.get? i with
  | some (some t, _) =>
    if t = 0 then requiresScan cls provided rest
    else do
    let _ ← derefConst cls.cpool (Int.ofNat i)
    let pvOpt ← requiresEntry cls i t
    let restv ← requiresScan cls provided rest
    match pvOpt with
    | some pv => if pv ≠ [] ∧ pv ∉ provided then .ok (pv :: restv) else .ok restv
    | none => .ok restv
  | _ => requiresScan cls provided rest

/-- Embeds `JavaClassInfo._get_requires` (source lines 692-721). -/
def getRequiresList (cls : JavaClassInfo) : Except PyErr (List (List Nat)) := do
  let provided ← get_provides cls true
  requiresScan cls provided (List.range' 1 (cls.cpool.consts.length - 1))

/-- Embeds `JavaClassInfo.get_requires` with no ignore patterns (source
lines 743-753); as with provides, set membership coincides with list
membership. -/
def get_requires (cls : JavaClassInfo) : Except PyErr (List (List Nat)) :=
  getRequiresList cls

deriving instance DecidableEq for Except

/-- The Code attribute's constant pool used in the line-number scenario:
index 1 holds the Utf8 string "LineNumberTable". -/
def c1pool : JavaConstantPool :=
  ⟨[(none, none), (some 1, some (CVal.s (strCodes "LineNumberTable")))]⟩

/-- Bytes of a Code attribute payload: max_stack 1, max_locals 1, one code
byte, no exception handlers, and one attribute: a LineNumberTable with the
entries (start_pc 0, line 10) and (start_pc 4, line 11). -/
def c1bytes : List Nat :=
  [0,1, 0,1, 0,0,0,1, 0, 0,0, 0,1, 0,1, 0,0,0,10, 0,2, 0,0, 0,10, 0,4, 0,11]

/-- The parsed form of `c1bytes`. -/
def c1code : JavaCodeInfo :=
  { max_stack := 1, max_locals := 1, code := [0], exceptions := [],
    attribs := [(PyVal.str (strCodes "LineNumberTable"), [0,2, 0,0, 0,10, 0,4, 0,11])] }

/-- Bytes of a minimal class file: magic, version 52.0, an empty constant
pool (declared count 1), access flags 0x21, this_ref 1, super_ref 0, and
no interfaces, fields, methods or attributes. -/
def c7bytes : List Nat :=
  [0xCA,0xFE,0xBA,0xBE, 0,0, 0,0x34, 0,1, 0,0x21, 0,1, 0,0, 0,0, 0,0, 0,0, 0,0]

/-- The parsed form of `c7bytes`. -/
def c7class : JavaClassInfo :=
  { magic := JAVA_CLASS_MAGIC, version := [52, 0], cpool := ⟨[(none, none)]⟩,
    access_flags := 0x21, this_ref := 1, super_ref := 0, interfaces := [],
    fields := [], methods := [], attribs := [] }

/-- The class used in the provides/requires witness: its pool holds its
own Class entry "Foo" and a Class entry "java/util/List". -/
def c9class : JavaClassInfo :=
  { magic := JAVA_CLASS_MAGIC, version := [52, 0],
    cpool := ⟨[(none, none),
      (some 7, some (CVal.idx 2)), (some 1, some (CVal.s (strCodes "Foo"))),
      (some 7, some (CVal.idx 4)), (some 1, some (CVal.s (strCodes "java/util/List")))]⟩,
    access_flags := 0x21, this_ref := 1, super_ref := 0, interfaces := [],
    fields := [], methods := [], attribs := [] }

/-- The bytes of a constant pool declaring count 4 whose populated entries
are two Longs (values 1 and 2). -/
def c5bytes : List Nat := [0,4, 5,0,0,0,0,0,0,0,1, 5,0,0,0,0,0,0,0,2]

/-- The parsed form of `c5bytes`: sentinel, Long 1, sentinel shadow,
Long 2 (the second Long sits in the final slot). -/
def c5pool : JavaConstantPool :=
  ⟨[(none, none), (some 5, some (CVal.i 1)), (none, none), (some 5, some (CVal.i 2))]⟩

/-- The bytes of a constant pool declaring count 2 whose single populated
entry is a Long, which therefore occupies the final slot. -/
def c10bytes : List Nat := [0,2, 5,0,0,0,0,0,0,0,9]

/-- The parsed form of `c10bytes`. -/
def c10pool : JavaConstantPool := ⟨[(none, none), (some 5, some (CVal.i 9))]⟩

/-- The tags `deref_const` knows: scalars, Class/String, and the compound
reference entries. -/
def knownConstTag (t : Nat) : Bool := knownScalarTag t || refTag t || pairTag t

/-- The bytes of a constant pool declaring count 3 whose single populated
entry is a Long, leaving a sentinel shadow slot at index 2. -/
def c8bytes : List Nat := [0,3, 5,0,0,0,0,0,0,0,7]

/-- The parsed form of `c8bytes`. -/
def c8pool : JavaConstantPool :=
  ⟨[(none, none), (some 5, some (CVal.i 7)), (none, none)]⟩

/-- Valid field-descriptor tokens, per the spec's descriptor grammar
(spec 3, "Descriptor tokens"): single primitive codes, object types
`L<name>;` (the class name contains no ';', since the token ends at the
first ';', and no ')', since JVM internal names exclude it and the token
may sit inside a parameter group that ends at the first ')'), and `[`
prefixing another token. -/
inductive ValidTokNP : List Nat → Prop
| prim (c : Nat) (h : c ∈ strCodes "VZBCSIJDF") : ValidTokNP [c]
| obj (name : List Nat) (h1 : ch ';' ∉ name) (h2 : ch ')' ∉ name) :
    ValidTokNP (ch 'L' :: (name ++ [ch ';']))
| arr (t : List Nat) (h : ValidTokNP t) : ValidTokNP (ch '[' :: t)

/-- Valid descriptor tokens: a field-descriptor token, or a parenthesized
method parameter group of field-descriptor tokens. -/
inductive ValidTok : List Nat → Prop
| field (t : List Nat) (h : ValidTokNP t) : ValidTok t
| group (ts : List (List Nat)) (h : ∀ t ∈ ts, ValidTokNP t) :
    ValidTok (ch '(' :: (ts.flatten ++ [ch ')']))

/-- A valid descriptor string: the concatenation of valid descriptor
tokens (a field descriptor is one token; a method descriptor is its
parameter group token followed by its return-type token). -/
def ValidDesc (s : List Nat) : Prop :=
  ∃ ts : List (List Nat), (∀ t ∈ ts, ValidTok t) ∧ s = ts.flatten

/-- C1: for the parsed Code attribute whose LineNumberTable is
[(0, 10), (4, 11)], `get_line_for_offset` is claimed to return the line
number of the entry with the largest start_pc ≤ pc.  At pc = 2 the code
returns 0 — the *start_pc* of the preceding entry, not its line number 10
— because the scan loop stores the offset in `prev` (`prev = o`, source
line 1338); likewise at pc = 5 it returns 4 instead of line 11.  Exact
matches (pc = 0, pc = 4) do return the line. -/
theorem get_line_for_offset_returns_offset_not_line :
  codeInfoUnpack c1pool c1bytes = .ok (c1code, [])
  ∧ get_linenumbertable c1code = .ok [[0, 10], [4, 11]]
  ∧ get_line_for_offset c1code 2 = .ok 0
  ∧ get_line_for_offset c1code 5 = .ok 4
  ∧ get_line_for_offset c1code 0 = .ok 10
  ∧ get_line_for_offset c1code 4 = .ok 11 := by
  refine ⟨by decide, by decide, by decide, by decide, by decide, by decide⟩

/-- C2: `is_class_file` can never return True: `is_class` applied to the
four magic bytes is True, but `is_class_file` compares that bool against
the byte string `JAVA_CLASS_MAGIC_STR` (source line 1842), and a bool
never equals a str in Python, so the result is False for a valid class
file — indeed for every file. -/
theorem is_class_file_never_true :
  is_class JAVA_CLASS_MAGIC_STR = true
  ∧ is_class_file JAVA_CLASS_MAGIC_STR = false
  ∧ ∀ contents : List Nat, is_class_file contents = false :=
  ⟨by decide, rfl, fun _ => rfl⟩

/-- C3: on a stream with 0 < 2 remaining bytes, `Unpacker.unpack(">H")`
does not raise an UnpackError carrying the format and wanted/present
counts: constructing the UnpackException crashes (its `__init__` calls
`Exception.__init__` without `self`), so the exception that escapes is a
TypeError, not an UnpackError of any shape. -/
theorem unpack_underflow_raises_type_error :
  unpackFmt [FmtItem.u16] []
    = .error (PyErr.typeError "descriptor init of Exception requires an Exception instance, not str")
  ∧ ∀ f w p, unpackFmt [FmtItem.u16] [] ≠ .error (PyErr.unpackError f w p) := by
  refine ⟨rfl, ?_⟩
  intro f w p h
  rw [show unpackFmt [FmtItem.u16] []
        = .error (PyErr.typeError "descriptor init of Exception requires an Exception instance, not str") from rfl] at h
  exact PyErr.noConfusion (Except.error.inj h)

/-- C6: the Utf8 constant decoder first attempts a strict UTF-8 decode and
uses its result whenever it succeeds; the payload 0xC0 0x80 (invalid
strict UTF-8) decodes to the single code point U+0000 via the
substitution retry; when the substituted bytes are still invalid, the
error escapes; and through `_unpack_const_item`, a Utf8 entry with
payload 0xC0 0x80 parses to the one-code-point string U+0000. -/
theorem utf8_const_decode_policy :
  (∀ bs u, pyUtf8Decode bs = some u → utf8ConstDecode bs = .ok u)
  ∧ utf8ConstDecode [0xC0, 0x80] = .ok [0]
  ∧ (∀ bs, pyUtf8Decode bs = none → pyUtf8Decode (replaceC080 bs) = none →
      utf8ConstDecode bs = .error PyErr.unicodeDecodeError)
  ∧ unpackConstItem [1, 0, 2, 0xC0, 0x80] = .ok ((1, CVal.s [0]), []) := by
  refine ⟨?_, by decide, ?_, by decide⟩
  · intro bs u h
    unfold utf8ConstDecode
    rw [h]
  · intro bs h1 h2
    unfold utf8ConstDecode
    rw [h1, h2]

/-- Witness for `utf8_const_decode_policy`: its first component applied to
the concrete one-byte payload 0x41, whose strict decode succeeds. -/
theorem utf8_const_decode_policy_witness :
  utf8ConstDecode [0x41] = .ok [0x41] :=
  utf8_const_decode_policy.1 [0x41] [0x41] (by decide)

/-- Bind on a successful Except computation. -/
theorem except_bind_ok (x : α) (f : α → Except PyErr β) : (Except.ok x >>= f) = f x := rfl

/-- Bind on a failed Except computation. -/
theorem except_bind_err (e : PyErr) (f : α → Except PyErr β) :
  ((Except.error e : Except PyErr α) >>= f) = Except.error e := rfl

/-- The leftover stream of a successful `unpackFmt` is the input stream
minus the format's byte size. -/
theorem unpackFmt_drop (fmt : List FmtItem) (s : List Nat) (p : List Int × List Nat)
    (h : unpackFmt fmt s = .ok p) : p.2 = s.drop (fmtSize fmt) := by
  simp only [unpackFmt] at h
  split at h
  · exact absurd h (by simp)
  · injection h with h'
    rw [← h']

/-- C7: if a full `unpack_class` parse of a byte source succeeds, then
reading the four magic bytes off first and passing them through the magic
parameter of `unpack_class` applied to the remaining bytes yields the same
ClassFile. -/
theorem unpack_class_magic_preconsumed (bs : List Nat) (o : JavaClassInfo)
    (h : unpack_class bs none = .ok o) :
    unpack_class (bs.drop 4) (some JAVA_CLASS_MAGIC) = .ok o := by
  rw [unpack_class] at h
  cases hbb : unpackFmt fmtBBBB bs with
  | error e =>
    rw [hbb, except_bind_err] at h
    exact absurd h (by simp)
  | ok p =>
    obtain ⟨m, s⟩ := p
    have hs : s = bs.drop 4 := unpackFmt_drop fmtBBBB bs (m, s) hbb
    rw [hbb, except_bind_ok] at h
    by_cases hm : m = JAVA_CLASS_MAGIC
    · subst hm
      rw [hs] at h
      exact h
    · dsimp only at h
      rw [if_pos hm] at h
      exact absurd h (by simp)

/-- Witness for `unpack_class_magic_preconsumed` at the minimal class
file `c7bytes`. -/
theorem unpack_class_magic_preconsumed_witness :
  unpack_class (c7bytes.drop 4) (some JAVA_CLASS_MAGIC) = .ok c7class :=
  unpack_class_magic_preconsumed c7bytes c7class (by decide)

/-- Every string yielded by the requires scan fails the membership test
against the provided set, by construction of the yield guard. -/
theorem requiresScan_not_provided (cls : JavaClassInfo) (provided : List (List Nat)) :
    ∀ l out, requiresScan cls provided l = .ok out → ∀ x ∈ out, x ∉ provided := by
  intro l
  induction l with
  | nil =>
    intro out h x hx
    rw [requiresScan] at h
    injection h with h'
    subst h'
    cases hx
  | cons i rest ih =>
    intro out h x hx
    rw [requiresScan] at h
    cases hg : cls.cpool.consts.get? i with
    | none =>
      rw [hg] at h
      exact ih out h x hx
    | some sl =>
      obtain ⟨tOpt, v⟩ := sl
      cases tOpt with
      | none =>
        rw [hg] at h
        exact ih out h x hx
      | some t =>
        rw [hg] at h
        dsimp only at h
        by_cases ht0 : t = 0
        · rw [if_pos ht0] at h
          exact ih out h x hx
        · rw [if_neg ht0] at h
          cases hd : derefConst cls.cpool (Int.ofNat i) with
          | error e =>
            rw [hd, except_bind_err] at h
            exact absurd h (by simp)
          | ok dv =>
            rw [hd, except_bind_ok] at h
            cases he : requiresEntry cls i t with
            | error e =>
              rw [he, except_bind_err] at h
              exact absurd h (by simp)
            | ok pvOpt =>
              rw [he, except_bind_ok] at h
              cases hrest : requiresScan cls provided rest with
              | error e =>
                rw [hrest, except_bind_err] at h
                exact absurd h (by simp)
              | ok restv =>
                rw [hrest, except_bind_ok] at h
                cases pvOpt with
                | none =>
                  injection h with h'
                  subst h'
                  exact ih restv hrest x hx
                | some pv =>
                  dsimp only at h
                  by_cases hc : pv ≠ [] ∧ pv ∉ provided
                  · rw [if_pos hc] at h
                    injection h with h'
                    subst h'
                    rcases List.mem_cons.mp hx with hxe | hxr
                    · subst hxe
                      exact hc.2
                    · exact ih restv hrest x hxr
                  · rw [if_neg hc] at h
                    injection h with h'
                    subst h'
                    exact ih restv hrest x hx

/-- C9: for any class value, when `get_requires()` (no ignore patterns)
and `get_provides(private=True)` both succeed, the two result collections
are disjoint: the requires scan drops every reference already present in
the class's own private provides. -/
theorem requires_provides_disjoint (cls : JavaClassInfo) (req prov : List (List Nat))
    (hr : get_requires cls = .ok req) (hp : get_provides cls true = .ok prov) :
    ∀ x ∈ req, x ∉ prov := by
  rw [get_requires, getRequiresList] at hr
  rw [hp, except_bind_ok] at hr
  exact requiresScan_not_provided cls prov _ req hr

/-- Witness for `requires_provides_disjoint` at `c9class`, whose requires
set is exactly java.util.List and whose private provides is exactly Foo. -/
theorem requires_provides_disjoint_witness :
  strCodes "java.util.List" ∉ [strCodes "Foo"] :=
  requires_provides_disjoint c9class [strCodes "java.util.List"] [strCodes "Foo"]
    (by decide) (by decide) (strCodes "java.util.List") (by simp)

/-- `pyIndex` at a nonnegative index is plain list lookup. -/
theorem pyIndex_ofNat (l : List α) (j : Nat) :
    pyIndex l (Int.ofNat j)
      = match l.get? j with
        | some x => .ok x
        | none => .error PyErr.indexError := by
  unfold pyIndex
  split
  · rfl
  · next hneg => exact absurd (Int.ofNat_nonneg j) hneg

/-- Invariant of the constant-pool item loop (`cpoolLoop`): the produced
slot list has exactly one slot per iteration; the record counter plus the
number of sentinel slots equals the iteration count; a loop entered with
the hackpass flag set begins with a sentinel; and every Long/Double slot
with a successor inside the produced list is followed by a sentinel. -/
theorem cpoolLoop_spec :
    ∀ n hp s items s' tags, cpoolLoop n hp s = .ok (items, s', tags) →
      items.length = n
      ∧ tags + items.countP (fun sl => sl.1.isNone) = n
      ∧ (hp = true → items.get? 0 = some (none, none) ∨ n = 0)
      ∧ ∀ j t v, items.get? j = some (some t, some v) → (t = 5 ∨ t = 6) → j + 1 < n →
          items.get? (j + 1) = some (none, none) := by
  intro n
  induction n with
  | zero =>
    intro hp s items s' tags h
    rw [cpoolLoop] at h
    injection h with h'
    obtain ⟨h1, h2, h3⟩ : [] = items ∧ s = s' ∧ 0 = tags := by
      simpa [Prod.mk.injEq] using h'
    subst h1
    subst h3
    refine ⟨rfl, rfl, fun _ => Or.inr rfl, ?_⟩
    intro j t v _ _ hlt
    omega
  | succ n ih =>
    intro hp s items s' tags h
    cases hp with
    | true =>
      rw [cpoolLoop] at h
      rw [if_pos rfl] at h
      cases hl : cpoolLoop n false s with
      | error e =>
        rw [hl, except_bind_err] at h
        exact absurd h (by simp)
      | ok trip =>
        obtain ⟨its, s2, tg⟩ := trip
        rw [hl, except_bind_ok] at h
        injection h with h'
        obtain ⟨h1, h2, h3⟩ : (none, none) :: its = items ∧ s2 = s' ∧ tg = tags := by
          simpa [Prod.mk.injEq] using h'
        subst h1
        subst h3
        obtain ⟨hlen, hcount, _, hadj⟩ := ih false s its s2 tg hl
        refine ⟨by simp [hlen], ?_, fun _ => Or.inl rfl, ?_⟩
        · simp [List.countP_cons]
          omega
        · intro j t v hj ht hlt
          cases j with
          | zero => exact absurd hj (by simp)
          | succ j' =>
            rw [List.get?_cons_succ] at hj
            rw [List.get?_cons_succ]
            exact hadj j' t v hj ht (by omega)
    | false =>
      rw [cpoolLoop] at h
      rw [if_neg (by simp)] at h
      cases hu : unpackConstItem s with
      | error e =>
        rw [hu, except_bind_err] at h
        exact absurd h (by simp)
      | ok pr =>
        obtain ⟨⟨t, v⟩, s1⟩ := pr
        rw [hu, except_bind_ok] at h
        dsimp only at h
        cases hl : cpoolLoop n (t == 5 || t == 6) s1 with
        | error e =>
          rw [hl, except_bind_err] at h
          exact absurd h (by simp)
        | ok trip =>
          obtain ⟨its, s2, tg⟩ := trip
          rw [hl, except_bind_ok] at h
          injection h with h'
          obtain ⟨h1, h2, h3⟩ : (some t, some v) :: its = items ∧ s2 = s' ∧ tg + 1 = tags := by
            simpa [Prod.mk.injEq] using h'
          subst h1
          subst h3
          obtain ⟨hlen, hcount, hhead, hadj⟩ := ih (t == 5 || t == 6) s1 its s2 tg hl
          refine ⟨by simp [hlen], ?_, by simp, ?_⟩
          · simp [List.countP_cons]
            omega
          · intro j t' v' hj ht' hlt
            cases j with
            | zero =>
              rw [List.get?_cons_zero] at hj
              injection hj with hj'
              obtain ⟨hjt, _⟩ : some t = some t' ∧ some v = some v' := by
                simpa [Prod.mk.injEq] using hj'
              have htt : t = t' := Option.some.inj hjt
              have hb : (t == 5 || t == 6) = true := by
                subst htt
                rcases ht' with h5 | h6
                · subst h5; rfl
                · subst h6; rfl
              rcases hhead hb with hh | hz
              · rw [List.get?_cons_succ]
                exact hh
              · omega
            | succ j' =>
              rw [List.get?_cons_succ] at hj
              rw [List.get?_cons_succ]
              exact hadj j' t' v' hj ht' (by omega)

/-- C5 (amended): for a successfully parsed constant pool with declared
count `count ≥ 1`, the slot vector has length `count`; the number of
constant-item records parsed (one tag byte each) is `count - 1` minus the
number of sentinel slots beyond index 0 (each Long/Double shadow slot is
appended without consuming a tag byte); and every Long/Double entry that
is not in the final slot is followed by a sentinel slot. -/
theorem cpool_slot_accounting (s s1 : List Nat) (pool : JavaConstantPool) (rest : List Nat)
    (tags count : Nat)
    (h : cpoolUnpackCount s = .ok (pool, rest, tags))
    (hc : unpack16 s = .ok (count, s1))
    (h1 : 1 ≤ count) :
    pool.consts.length = count
    ∧ tags + (pool.consts.drop 1).countP (fun sl => sl.1.isNone) = count - 1
    ∧ ∀ j t v, pool.consts.get? j = some (some t, some v) → (t = 5 ∨ t = 6) → j + 1 < count →
        pool.consts.get? (j + 1) = some (none, none) := by
  rw [cpoolUnpackCount] at h
  rw [hc, except_bind_ok] at h
  dsimp only at h
  cases hl : cpoolLoop (count - 1) false s1 with
  | error e =>
    rw [hl, except_bind_err] at h
    exact absurd h (by simp)
  | ok trip =>
    obtain ⟨items, s2, tg⟩ := trip
    rw [hl, except_bind_ok] at h
    injection h with h'
    obtain ⟨h1p, h2p, h3p⟩ :
        (⟨(none, none) :: items⟩ : JavaConstantPool) = pool ∧ s2 = rest ∧ tg = tags := by
      simpa [Prod.mk.injEq] using h'
    subst h1p
    subst h3p
    obtain ⟨hlen, hcount, _, hadj⟩ := cpoolLoop_spec (count - 1) false s1 items s2 tg hl
    refine ⟨?_, ?_, ?_⟩
    · show ((none, none) :: items).length = count
      simp [hlen]
      omega
    · show tg + ((((none, none) :: items).drop 1).countP (fun sl => sl.1.isNone)) = count - 1
      simpa using hcount
    · intro j t v hj ht hlt
      cases j with
      | zero => exact absurd hj (by simp)
      | succ j' =>
        show ((none, none) :: items).get? (j' + 1 + 1) = some (none, none)
        rw [List.get?_cons_succ]
        rw [show ((none, none) :: items).get? (j' + 1) = items.get? j' from List.get?_cons_succ] at hj
        exact hadj j' t v hj ht (by omega)

/-- C5 (counterexample): parsing `c5bytes` (declared count 4) succeeds and
consumes exactly 2 tag bytes, not `4 - 1 = 3` as the claim states: the
sentinel slot following the first Long consumes a slot but no tag byte.
Moreover the Long stored in the final slot (index 3) has no following
sentinel slot at index 4. -/
theorem cpool_tag_count_counterexample :
  cpoolUnpackCount c5bytes = .ok (c5pool, [], 2)
  ∧ (2 : Nat) ≠ 4 - 1
  ∧ c5pool.consts.get? 3 = some (some 5, some (CVal.i 2))
  ∧ c5pool.consts.get? 4 = none :=
  ⟨by decide, by decide, by decide, by decide⟩

/-- Witness for `cpool_slot_accounting` at `c5bytes`: slot-vector length 4,
tag-byte accounting 2 + 1 = 4 - 1, and the sentinel after the first Long. -/
theorem cpool_slot_accounting_witness :
  c5pool.consts.length = 4
  ∧ 2 + (c5pool.consts.drop 1).countP (fun sl => sl.1.isNone) = 4 - 1
  ∧ c5pool.consts.get? 2 = some (none, none) := by
  have h := cpool_slot_accounting c5bytes [5,0,0,0,0,0,0,0,1, 5,0,0,0,0,0,0,0,2]
    c5pool [] 2 4 (by decide) (by decide) (by decide)
  exact ⟨h.1, h.2.1, h.2.2 1 5 (CVal.i 1) (by decide) (Or.inl rfl) (by decide)⟩

/-- C10 (amended): for a successfully parsed constant pool, `get_const(0)`
returns the sentinel pair `(None, None)` without raising, and for every
Long/Double entry at index `i` whose shadow slot `i + 1` exists (i.e.
`i + 1 < pool size`), both `get_const(i + 1)` and `pretty_const(i + 1)`
return `(None, None)` without raising. -/
theorem get_const_sentinel_slots (s : List Nat) (pool : JavaConstantPool) (rest : List Nat)
    (h : cpoolUnpack s = .ok (pool, rest)) :
    get_const pool 0 = .ok (none, none)
    ∧ ∀ j t v, pool.consts.get? j = some (some t, some v) → (t = 5 ∨ t = 6) →
        j + 1 < pool.consts.length →
        get_const pool (Int.ofNat (j + 1)) = .ok (none, none)
        ∧ pretty_const pool (Int.ofNat (j + 1)) = .ok (none, none) := by
  rw [cpoolUnpack] at h
  cases hcc : cpoolUnpackCount s with
  | error e =>
    rw [hcc, except_bind_err] at h
    exact absurd h (by simp)
  | ok trip =>
    obtain ⟨pool0, s2, tg⟩ := trip
    rw [hcc, except_bind_ok] at h
    injection h with h'
    obtain ⟨h1p, h2p⟩ : pool0 = pool ∧ s2 = rest := by
      simpa [Prod.mk.injEq] using h'
    subst h1p
    rw [cpoolUnpackCount] at hcc
    cases hc : unpack16 s with
    | error e =>
      rw [hc, except_bind_err] at hcc
      exact absurd hcc (by simp)
    | ok cp =>
      obtain ⟨count, s1⟩ := cp
      rw [hc, except_bind_ok] at hcc
      dsimp only at hcc
      cases hl : cpoolLoop (count - 1) false s1 with
      | error e =>
        rw [hl, except_bind_err] at hcc
        exact absurd hcc (by simp)
      | ok trip2 =>
        obtain ⟨items, s3, tg2⟩ := trip2
        rw [hl, except_bind_ok] at hcc
        injection hcc with hcc'
        obtain ⟨hp0, _, htg⟩ :
            (⟨(none, none) :: items⟩ : JavaConstantPool) = pool0 ∧ s3 = s2 ∧ tg2 = tg := by
          simpa [Prod.mk.injEq] using hcc'
        obtain ⟨hlen, _, _, hadj⟩ := cpoolLoop_spec (count - 1) false s1 items s3 tg2 hl
        refine ⟨?_, ?_⟩
        · rw [get_const, ← hp0]
          rw [show (0 : Int) = Int.ofNat 0 from rfl, pyIndex_ofNat]
          rfl
        · intro j t v hj ht hlt
          rw [← hp0] at hj hlt ⊢
          have hsent : ((none, none) :: items).get? (j + 1) = some (none, none) := by
            cases j with
            | zero => exact absurd hj (by simp)
            | succ j' =>
              rw [List.get?_cons_succ]
              rw [List.get?_cons_succ] at hj
              have hlt' : j' + 1 < items.length := by
                simpa using hlt
              exact hadj j' t v hj ht (by omega)
          constructor
          · rw [get_const, pyIndex_ofNat, hsent]
          · rw [pretty_const]
            rw [show pyIndex (⟨(none, none) :: items⟩ : JavaConstantPool).consts (Int.ofNat (j + 1))
                  = Except.ok ((none, none) : Slot) by rw [pyIndex_ofNat, hsent]]
            rfl

/-- C10 (counterexample): `c10bytes` parses successfully with a Long at
index 1, but `get_const(2)` raises IndexError instead of returning the
sentinel pair: the Long sits in the final slot, so no index `i + 1`
exists.  `pretty_const(2)` raises the same way. -/
theorem get_const_long_tail_counterexample :
  cpoolUnpack c10bytes = .ok (c10pool, [])
  ∧ c10pool.consts.get? 1 = some (some 5, some (CVal.i 9))
  ∧ get_const c10pool 2 = .error PyErr.indexError
  ∧ pretty_const c10pool 2 = .error PyErr.indexError :=
  ⟨by decide, by decide, by decide, by decide⟩

/-- Witness for `get_const_sentinel_slots` at `c5bytes`: index 0 and the
shadow slot of the first Long both read back as `(None, None)`. -/
theorem get_const_sentinel_slots_witness :
  get_const c5pool 0 = .ok (none, none)
  ∧ get_const c5pool (Int.ofNat 2) = .ok (none, none)
  ∧ pretty_const c5pool (Int.ofNat 2) = .ok (none, none) := by
  have h := get_const_sentinel_slots c5bytes c5pool [] (by decide)
  have h2 := h.2 1 5 (CVal.i 1) (by decide) (Or.inl rfl) (by decide)
  exact ⟨h.1, h2.1, h2.2⟩

/-- Dereferencing a populated scalar entry at a nonzero index returns its
stored value, for any positive fuel. -/
theorem derefFuel_scalar (pool : JavaConstantPool) (j : Nat) (t : Nat) (cv : CVal) (f : Nat)
    (hj : pool.consts.get? j = some (some t, some cv))
    (ht : knownScalarTag t = true) (hj1 : j ≠ 0) :
    derefConstFuel (f + 1) pool (Int.ofNat j) = .ok (pyValOfCVal cv) := by
  rw [derefConstFuel]
  rw [if_neg (by simpa [Int.ofNat_eq_zero] using hj1)]
  rw [pyIndex_ofNat, hj]
  dsimp only
  rw [if_pos ht]

/-- Dereferencing a Class/String entry at a nonzero index recurses into
its stored index. -/
theorem derefFuel_ref (pool : JavaConstantPool) (j : Nat) (t : Nat) (n : Int) (f : Nat)
    (hj : pool.consts.get? j = some (some t, some (CVal.idx n)))
    (ht : refTag t = true) (hns : knownScalarTag t = false) (hj1 : j ≠ 0) :
    derefConstFuel (f + 1) pool (Int.ofNat j) = derefConstFuel f pool n := by
  rw [derefConstFuel]
  rw [if_neg (by simpa [Int.ofNat_eq_zero] using hj1)]
  rw [pyIndex_ofNat, hj]
  dsimp only
  rw [if_neg (by simp [hns]), if_pos ht]

/-- Dereferencing a compound entry at a nonzero index dereferences both
stored indices and pairs the results. -/
theorem derefFuel_pair (pool : JavaConstantPool) (j : Nat) (t : Nat) (a b : Int) (f : Nat)
    (hj : pool.consts.get? j = some (some t, some (CVal.pair a b)))
    (ht : pairTag t = true) (hns : knownScalarTag t = false) (hnr : refTag t = false)
    (hj1 : j ≠ 0) :
    derefConstFuel (f + 1) pool (Int.ofNat j)
      = (do
          let x ← derefConstFuel f pool a
          let y ← derefConstFuel f pool b
          .ok (PyVal.tup2 x y)) := by
  rw [derefConstFuel]
  rw [if_neg (by simpa [Int.ofNat_eq_zero] using hj1)]
  rw [pyIndex_ofNat, hj]
  dsimp only
  rw [if_neg (by simp [hns]), if_neg (by simp [hnr]), if_pos ht]

/-- What a `tagAtI consts n = some t` fact unfolds to: a proper (nonzero,
in-range) index with a populated slot of tag `t`. -/
theorem tagAtI_elim (consts : List Slot) (n : Int) (t : Nat)
    (h : tagAtI consts n = some t) :
    ∃ j : Nat, Int.ofNat j = n ∧ 1 ≤ j ∧ ∃ vv, consts.get? j = some (some t, vv) := by
  unfold tagAtI at h
  split at h
  · next h1 =>
    refine ⟨n.toNat, Int.toNat_of_nonneg (by omega), by omega, ?_⟩
    cases hg : consts.get? n.toNat with
    | none => rw [hg] at h; exact absurd h (by simp)
    | some sl =>
      obtain ⟨tOpt, vv⟩ := sl
      cases tOpt with
      | none => rw [hg] at h; exact absurd h (by simp)
      | some t' =>
        rw [hg] at h
        dsimp only at h
        injection h with h'
        subst h'
        exact ⟨vv, rfl⟩
  · exact absurd h (by simp)

/-- A slot looked up in a pool with valid cross-references satisfies the
per-slot validity predicate. -/
theorem slotOK_of_get (consts : List Slot) (j : Nat) (sl : Slot)
    (hv : crossRefsOK consts = true) (hj : consts.get? j = some sl) :
    slotRefsOK consts sl = true :=
  List.all_eq_true.mp hv sl (List.get?_mem hj)

/-- In a valid pool, dereferencing an index known to hold a Utf8 entry
succeeds, for any positive fuel. -/
theorem deref_utf8_ok (pool : JavaConstantPool) (n : Int) (f : Nat)
    (hv : crossRefsOK pool.consts = true)
    (h1 : tagAtI pool.consts n = some 1) :
    ∃ v, derefConstFuel (f + 1) pool n = .ok v := by
  obtain ⟨j, rfl, hj1, vv, hj⟩ := tagAtI_elim pool.consts n 1 h1
  have hsl := slotOK_of_get pool.consts j _ hv hj
  cases vv with
  | none => exact absurd hsl (by simp [slotRefsOK])
  | some cv =>
    exact ⟨pyValOfCVal cv, derefFuel_scalar pool j 1 cv f hj (by decide) (by omega)⟩

/-- In a valid pool, dereferencing an index known to hold a Class entry
succeeds with fuel at least 2. -/
theorem deref_class_ok (pool : JavaConstantPool) (n : Int) (f : Nat)
    (hv : crossRefsOK pool.consts = true)
    (h7 : tagAtI pool.consts n = some 7) :
    ∃ v, derefConstFuel (f + 2) pool n = .ok v := by
  obtain ⟨j, rfl, hj1, vv, hj⟩ := tagAtI_elim pool.consts n 7 h7
  have hsl := slotOK_of_get pool.consts j _ hv hj
  cases vv with
  | none => exact absurd hsl (by simp [slotRefsOK])
  | some cv =>
    cases cv with
    | idx w =>
      have hw : tagAtI pool.consts w = some 1 := by
        simpa [slotRefsOK] using hsl
      rw [derefFuel_ref pool j 7 w (f + 1) hj (by decide) (by decide) (by omega)]
      exact deref_utf8_ok pool w f hv hw
    | s cs => exact absurd hsl (by simp [slotRefsOK])
    | i z => exact absurd hsl (by simp [slotRefsOK])
    | fbits nn => exact absurd hsl (by simp [slotRefsOK])
    | dbits nn => exact absurd hsl (by simp [slotRefsOK])
    | pair aa bb => exact absurd hsl (by simp [slotRefsOK])

/-- In a valid pool, dereferencing an index known to hold a NameAndType
entry succeeds with fuel at least 2. -/
theorem deref_nat_ok (pool : JavaConstantPool) (n : Int) (f : Nat)
    (hv : crossRefsOK pool.consts = true)
    (h12 : tagAtI pool.consts n = some 12) :
    ∃ v, derefConstFuel (f + 2) pool n = .ok v := by
  obtain ⟨j, rfl, hj1, vv, hj⟩ := tagAtI_elim pool.consts n 12 h12
  have hsl := slotOK_of_get pool.consts j _ hv hj
  cases vv with
  | none => exact absurd hsl (by simp [slotRefsOK])
  | some cv =>
    cases cv with
    | pair a b =>
      have hab : tagAtI pool.consts a = some 1 ∧ tagAtI pool.consts b = some 1 := by
        simpa [slotRefsOK] using hsl
      rw [derefFuel_pair pool j 12 a b (f + 1) hj (by decide) (by decide) (by decide) (by omega)]
      obtain ⟨va, hva⟩ := deref_utf8_ok pool a f hv hab.1
      obtain ⟨vb, hvb⟩ := deref_utf8_ok pool b f hv hab.2
      exact ⟨PyVal.tup2 va vb, by rw [hva, except_bind_ok, hvb, except_bind_ok]⟩
    | s cs => exact absurd hsl (by simp [slotRefsOK])
    | i z => exact absurd hsl (by simp [slotRefsOK])
    | fbits nn => exact absurd hsl (by simp [slotRefsOK])
    | dbits nn => exact absurd hsl (by simp [slotRefsOK])
    | idx w => exact absurd hsl (by simp [slotRefsOK])

/-- Case split on a boolean disjunction. -/
theorem bor_elim {a b : Bool} (h : (a || b) = true) : a = true ∨ b = true := by
  cases a
  · right
    simpa using h
  · left
    rfl

/-- C8 (amended): for any pool whose cross-references are all valid,
`deref_const(0)` raises "Requested const 0"; `deref_const(i)` on an empty
(sentinel) slot raises Unimplemented, as does a populated slot with an
unknown tag; and on every populated in-range slot with a known tag it
succeeds without raising. -/
theorem deref_const_error_cases (pool : JavaConstantPool)
    (hv : crossRefsOK pool.consts = true) :
    derefConst pool 0 = .error (PyErr.exception "Requested const 0")
    ∧ (∀ j vv, pool.consts.get? j = some (none, vv) → 1 ≤ j →
        derefConst pool (Int.ofNat j) = .error (PyErr.unimplementedConst none))
    ∧ (∀ j t vv, pool.consts.get? j = some (some t, vv) → knownConstTag t = false → 1 ≤ j →
        derefConst pool (Int.ofNat j) = .error (PyErr.unimplementedConst (some t)))
    ∧ (∀ j t cv, pool.consts.get? j = some (some t, cv) → knownConstTag t = true → 1 ≤ j →
        ∃ v, derefConst pool (Int.ofNat j) = .ok v) := by
  refine ⟨?_, ?_, ?_, ?_⟩
  · rw [derefConst, derefConstFuel]
    rw [if_pos rfl]
  · intro j vv hj hj1
    rw [derefConst, derefConstFuel]
    rw [if_neg (by simp [Int.ofNat_eq_zero]; omega)]
    rw [pyIndex_ofNat, hj]
  · intro j t vv hj hkt hj1
    have hts : knownScalarTag t = false := by
      rw [knownConstTag] at hkt
      cases hx : knownScalarTag t with
      | false => rfl
      | true => rw [hx] at hkt; simp at hkt
    have htr : refTag t = false := by
      rw [knownConstTag] at hkt
      cases hx : refTag t with
      | false => rfl
      | true => rw [hx] at hkt; simp at hkt
    have htp : pairTag t = false := by
      rw [knownConstTag] at hkt
      cases hx : pairTag t with
      | false => rfl
      | true => rw [hx] at hkt; simp at hkt
    rw [derefConst, derefConstFuel]
    rw [if_neg (by simp [Int.ofNat_eq_zero]; omega)]
    rw [pyIndex_ofNat, hj]
    dsimp only
    rw [if_neg (by simp [hts]), if_neg (by simp [htr]), if_neg (by simp [htp])]
  · intro j t cv hj hkt hj1
    have hjl : j < pool.consts.length := by
      by_contra hcon
      rw [List.get?_eq_none.mpr (by omega)] at hj
      cases hj
    have hlen : 2 ≤ pool.consts.length := by omega
    have hfe : pool.consts.length + 1 = (pool.consts.length - 2) + 3 := by omega
    rw [derefConst, hfe]
    have hsl := slotOK_of_get pool.consts j _ hv hj
    rw [knownConstTag] at hkt
    rcases bor_elim hkt with hr | hp
    · rcases bor_elim hr with hs | hrr
      · cases cv with
        | none => exact absurd hsl (by
            have : slotRefsOK pool.consts (some t, none) = false := by
              rw [slotRefsOK]
            simp [this])
        | some cvv =>
          exact ⟨pyValOfCVal cvv,
            derefFuel_scalar pool j t cvv (pool.consts.length - 2 + 2) hj hs (by omega)⟩
      · have hts : knownScalarTag t = false := by
          simp only [refTag] at hrr
          rcases bor_elim hrr with h7 | h8
          · rw [Nat.beq_eq_true_eq] at h7; subst h7; rfl
          · rw [Nat.beq_eq_true_eq] at h8; subst h8; rfl
        simp only [refTag] at hrr
        rcases bor_elim hrr with h7 | h8
        · rw [Nat.beq_eq_true_eq] at h7
          subst h7
          cases cv with
          | none => exact absurd hsl (by simp [slotRefsOK])
          | some cvv =>
            cases cvv with
            | idx w =>
              have hw : tagAtI pool.consts w = some 1 := by
                simpa [slotRefsOK] using hsl
              rw [derefFuel_ref pool j 7 w _ hj (by decide) (by decide) (by omega)]
              exact deref_utf8_ok pool w _ hv hw
            | s cs => exact absurd hsl (by simp [slotRefsOK])
            | i z => exact absurd hsl (by simp [slotRefsOK])
            | fbits nn => exact absurd hsl (by simp [slotRefsOK])
            | dbits nn => exact absurd hsl (by simp [slotRefsOK])
            | pair aa bb => exact absurd hsl (by simp [slotRefsOK])
        · rw [Nat.beq_eq_true_eq] at h8
          subst h8
          cases cv with
          | none => exact absurd hsl (by simp [slotRefsOK])
          | some cvv =>
            cases cvv with
            | idx w =>
              have hw : tagAtI pool.consts w = some 1 := by
                simpa [slotRefsOK] using hsl
              rw [derefFuel_ref pool j 8 w _ hj (by decide) (by decide) (by omega)]
              exact deref_utf8_ok pool w _ hv hw
            | s cs => exact absurd hsl (by simp [slotRefsOK])
            | i z => exact absurd hsl (by simp [slotRefsOK])
            | fbits nn => exact absurd hsl (by simp [slotRefsOK])
            | dbits nn => exact absurd hsl (by simp [slotRefsOK])
            | pair aa bb => exact absurd hsl (by simp [slotRefsOK])
    · simp only [pairTag] at hp
      have step : ∀ tv : Nat, (tv = 9 ∨ tv = 10 ∨ tv = 11) →
          pool.consts.get? j = some (some tv, cv) →
          slotRefsOK pool.consts (some tv, cv) = true →
          ∃ v, derefConstFuel (pool.consts.length - 2 + 3) pool (Int.ofNat j) = .ok v := by
        intro tv htv hjv hslv
        have hshape : ∃ a b, cv = some (CVal.pair a b)
            ∧ tagAtI pool.consts a = some 7 ∧ tagAtI pool.consts b = some 12 := by
          rcases htv with h9 | h10 | h11 <;> subst_vars <;>
            (cases cv with
             | none => exact absurd hslv (by simp [slotRefsOK])
             | some cvv =>
               cases cvv with
               | pair aa bb =>
                 refine ⟨aa, bb, rfl, ?_⟩
                 simpa [slotRefsOK] using hslv
               | s cs => exact absurd hslv (by simp [slotRefsOK])
               | i z => exact absurd hslv (by simp [slotRefsOK])
               | fbits nn => exact absurd hslv (by simp [slotRefsOK])
               | dbits nn => exact absurd hslv (by simp [slotRefsOK])
               | idx w => exact absurd hslv (by simp [slotRefsOK]))
        obtain ⟨a, b, rfl, ha, hb⟩ := hshape
        have hpt : pairTag tv = true := by
          rcases htv with h | h | h <;> subst h <;> rfl
        have hst : knownScalarTag tv = false := by
          rcases htv with h | h | h <;> subst h <;> rfl
        have hrt : refTag tv = false := by
          rcases htv with h | h | h <;> subst h <;> rfl
        rw [derefFuel_pair pool j tv a b _ hjv hpt hst hrt (by omega)]
        obtain ⟨va, hva⟩ := deref_class_ok pool a (pool.consts.length - 2) hv ha
        obtain ⟨vb, hvb⟩ := deref_nat_ok pool b (pool.consts.length - 2) hv hb
        exact ⟨PyVal.tup2 va vb, by rw [hva, except_bind_ok, hvb, except_bind_ok]⟩
      rcases bor_elim hp with hp4 | h13
      · rcases bor_elim hp4 with hp3 | h12
        · rcases bor_elim hp3 with hp2 | h11
          · rcases bor_elim hp2 with h9 | h10
            · rw [Nat.beq_eq_true_eq] at h9
              exact step t (Or.inl h9) hj hsl
            · rw [Nat.beq_eq_true_eq] at h10
              exact step t (Or.inr (Or.inl h10)) hj hsl
          · rw [Nat.beq_eq_true_eq] at h11
            exact step t (Or.inr (Or.inr h11)) hj hsl
        · rw [Nat.beq_eq_true_eq] at h12
          subst h12
          cases cv with
          | none => exact absurd hsl (by simp [slotRefsOK])
          | some cvv =>
            cases cvv with
            | pair a b =>
              have hab : tagAtI pool.consts a = some 1 ∧ tagAtI pool.consts b = some 1 := by
                simpa [slotRefsOK] using hsl
              rw [derefFuel_pair pool j 12 a b _ hj (by decide) (by decide) (by decide) (by omega)]
              obtain ⟨va, hva⟩ := deref_utf8_ok pool a (pool.consts.length - 2 + 1) hv hab.1
              obtain ⟨vb, hvb⟩ := deref_utf8_ok pool b (pool.consts.length - 2 + 1) hv hab.2
              exact ⟨PyVal.tup2 va vb, by rw [hva, except_bind_ok, hvb, except_bind_ok]⟩
            | s cs => exact absurd hsl (by simp [slotRefsOK])
            | i z => exact absurd hsl (by simp [slotRefsOK])
            | fbits nn => exact absurd hsl (by simp [slotRefsOK])
            | dbits nn => exact absurd hsl (by simp [slotRefsOK])
            | idx w => exact absurd hsl (by simp [slotRefsOK])
      · rw [Nat.beq_eq_true_eq] at h13
        subst h13
        cases cv with
        | none => exact absurd hsl (by simp [slotRefsOK])
        | some cvv =>
          cases cvv with
          | pair a b =>
            have hab : tagAtI pool.consts a = some 1 ∧ tagAtI pool.consts b = some 1 := by
              simpa [slotRefsOK] using hsl
            rw [derefFuel_pair pool j 13 a b _ hj (by decide) (by decide) (by decide) (by omega)]
            obtain ⟨va, hva⟩ := deref_utf8_ok pool a (pool.consts.length - 2 + 1) hv hab.1
            obtain ⟨vb, hvb⟩ := deref_utf8_ok pool b (pool.consts.length - 2 + 1) hv hab.2
            exact ⟨PyVal.tup2 va vb, by rw [hva, except_bind_ok, hvb, except_bind_ok]⟩
          | s cs => exact absurd hsl (by simp [slotRefsOK])
          | i z => exact absurd hsl (by simp [slotRefsOK])
          | fbits nn => exact absurd hsl (by simp [slotRefsOK])
          | dbits nn => exact absurd hsl (by simp [slotRefsOK])
          | idx w => exact absurd hsl (by simp [slotRefsOK])

/-- C8 (counterexample): `c8pool` parses from `c8bytes` with all
cross-references (vacuously) valid, yet `deref_const(2)` raises
Unimplemented although slot 2 is an empty sentinel, not a populated slot
with an unknown tag — a raising case beyond the two the claim allows. -/
theorem deref_sentinel_raises_counterexample :
  cpoolUnpack c8bytes = .ok (c8pool, [])
  ∧ crossRefsOK c8pool.consts = true
  ∧ c8pool.consts.get? 2 = some (none, none)
  ∧ derefConst c8pool 2 = .error (PyErr.unimplementedConst none) :=
  ⟨by decide, by decide, by decide, by decide⟩

/-- Witness for `deref_const_error_cases` at `c8pool`: index 0 raises the
"Requested const 0" error and the Long entry at index 1 dereferences
without raising. -/
theorem deref_const_error_cases_witness :
  derefConst c8pool 0 = .error (PyErr.exception "Requested const 0")
  ∧ ∃ v, derefConst c8pool 1 = .ok v := by
  have h := deref_const_error_cases c8pool (by decide)
  exact ⟨h.1, h.2.2.2 1 5 (some (CVal.i 7)) (by decide) (by decide) (by decide)⟩

/-- A valid field-descriptor token is nonempty. -/
theorem validTokNP_ne_nil (t : List Nat) (h : ValidTokNP t) : t ≠ [] := by
  cases h <;> simp

/-- A valid descriptor token is nonempty. -/
theorem validTok_ne_nil (t : List Nat) (h : ValidTok t) : t ≠ [] := by
  cases h with
  | field t h' => exact validTokNP_ne_nil t h'
  | group ts hts => simp

/-- A primitive code is not one of the delimiter characters. -/
theorem prim_ne_delims (c : Nat) (h : c ∈ strCodes "VZBCSIJDF") :
    c ≠ ch ')' ∧ c ≠ ch ';' := by
  have h' : c = 86 ∨ c = 90 ∨ c = 66 ∨ c = 67 ∨ c = 83 ∨ c = 73 ∨ c = 74 ∨ c = 68 ∨ c = 70 := by
    simpa [strCodes, ch] using h
  rcases h' with rfl | rfl | rfl | rfl | rfl | rfl | rfl | rfl | rfl <;> exact ⟨by decide, by decide⟩

/-- No valid field-descriptor token contains ')'. -/
theorem validTokNP_no_paren (t : List Nat) (h : ValidTokNP t) : ch ')' ∉ t := by
  induction h with
  | prim c hc =>
    intro hmem
    rcases List.mem_singleton.mp hmem with rfl
    exact (prim_ne_delims _ hc).1 rfl
  | obj name h1 h2 =>
    intro hmem
    rcases List.mem_cons.mp hmem with he | hm
    · exact absurd he (by decide)
    · rcases List.mem_append.mp hm with hn | hsemi
      · exact h2 hn
      · rcases List.mem_singleton.mp hsemi with he'
        exact absurd he' (by decide)
  | arr t' ht' ih =>
    intro hmem
    rcases List.mem_cons.mp hmem with he | hm
    · exact absurd he (by decide)
    · exact ih hm

/-- The flattening of valid field-descriptor tokens contains no ')'. -/
theorem flatten_no_paren (ts : List (List Nat)) (h : ∀ t ∈ ts, ValidTokNP t) :
    ch ')' ∉ ts.flatten := by
  intro hmem
  rcases List.mem_flatten.mp hmem with ⟨l, hl, hcl⟩
  exact validTokNP_no_paren l (h l hl) hcl

/-- Finding `c` in a list that starts with a `c`-free prefix lands right
after the prefix. -/
theorem pyFindAux_append (pre rest : List Nat) (c : Nat) (h : c ∉ pre) :
    ∀ k, pyFindAux (pre ++ c :: rest) c k = Int.ofNat (k + pre.length) := by
  induction pre with
  | nil =>
    intro k
    rw [List.nil_append, pyFindAux]
    rw [if_pos rfl]
    simp
  | cons x xs ih =>
    intro k
    rw [List.cons_append, pyFindAux]
    rw [if_neg (fun hx => h (by simp [hx]))]
    rw [ih (fun hx => h (List.mem_cons_of_mem x hx)) (k + 1)]
    congr 1
    simp
    omega

/-- `_next_argsig` recognizes a valid field-descriptor token at the head
of the buffer and returns exactly it, regardless of what follows. -/
theorem next_argsig_valid_np (t : List Nat) (h : ValidTokNP t) :
    ∀ rest, next_argsig (t ++ rest) = .ok (t, rest) := by
  induction h with
  | prim c hc =>
    intro rest
    rw [List.singleton_append, next_argsig]
    rw [if_pos hc]
  | obj name h1 h2 =>
    intro rest
    rw [List.cons_append, next_argsig]
    rw [if_neg (by decide), if_neg (by decide), if_pos rfl]
    dsimp only
    have hre : (name ++ [ch ';']) ++ rest = name ++ ch ';' :: rest := by
      simp
    rw [hre]
    have hfind : pyFind (ch 'L' :: (name ++ ch ';' :: rest)) (ch ';')
        = Int.ofNat (name.length + 1) := by
      rw [pyFind]
      rw [show ch 'L' :: (name ++ ch ';' :: rest) = (ch 'L' :: name) ++ ch ';' :: rest by simp]
      rw [pyFindAux_append (ch 'L' :: name) rest (ch ';')
        (by
          intro hmem
          rcases List.mem_cons.mp hmem with he | hm
          · exact absurd he (by decide)
          · exact h1 hm) 0]
      simp
    rw [hfind]
    have hi : (Int.ofNat (name.length + 1) + 1).toNat = name.length + 2 := by
      rw [show Int.ofNat (name.length + 1) = ((name.length + 1 : Nat) : Int) from rfl]
      omega
    rw [hi]
    have hsplit : ch 'L' :: (name ++ ch ';' :: rest)
        = (ch 'L' :: (name ++ [ch ';'])) ++ rest := by
      simp
    rw [hsplit]
    rw [List.take_left' (by simp), List.drop_left' (by simp)]
  | arr t' ht' ih =>
    intro rest
    rw [List.cons_append, next_argsig]
    rw [if_neg (by decide), if_pos rfl]
    rw [ih rest, except_bind_ok]

/-- `_next_argsig` recognizes a valid descriptor token at the head of the
buffer and returns exactly it, regardless of what follows. -/
theorem next_argsig_valid (t : List Nat) (h : ValidTok t) :
    ∀ rest, next_argsig (t ++ rest) = .ok (t, rest) := by
  cases h with
  | field t h' => exact next_argsig_valid_np t h'
  | group ts hts =>
    intro rest
    rw [List.cons_append, next_argsig]
    rw [if_neg (by decide), if_neg (by decide), if_neg (by decide), if_pos rfl]
    dsimp only
    have hre : (ts.flatten ++ [ch ')']) ++ rest = ts.flatten ++ ch ')' :: rest := by
      simp
    rw [hre]
    have hfind : pyFind (ch '(' :: (ts.flatten ++ ch ')' :: rest)) (ch ')')
        = Int.ofNat (ts.flatten.length + 1) := by
      rw [pyFind]
      rw [show ch '(' :: (ts.flatten ++ ch ')' :: rest)
            = (ch '(' :: ts.flatten) ++ ch ')' :: rest by simp]
      rw [pyFindAux_append (ch '(' :: ts.flatten) rest (ch ')')
        (by
          intro hmem
          rcases List.mem_cons.mp hmem with he | hm
          · exact absurd he (by decide)
          · exact flatten_no_paren ts hts hm) 0]
      simp
    rw [hfind]
    have hi : (Int.ofNat (ts.flatten.length + 1) + 1).toNat = ts.flatten.length + 2 := by
      rw [show Int.ofNat (ts.flatten.length + 1) = ((ts.flatten.length + 1 : Nat) : Int) from rfl]
      omega
    rw [hi]
    have hsplit : ch '(' :: (ts.flatten ++ ch ')' :: rest)
        = (ch '(' :: (ts.flatten ++ [ch ')'])) ++ rest := by
      simp
    rw [hsplit]
    rw [List.take_left' (by simp), List.drop_left' (by simp)]

/-- Whatever token `_next_argsig` returns, the token and the remaining
buffer concatenate back to the input buffer. -/
theorem next_argsig_append (buff t rest : List Nat)
    (h : next_argsig buff = .ok (t, rest)) : t ++ rest = buff := by
  induction buff generalizing t rest with
  | nil =>
    rw [next_argsig] at h
    exact absurd h (by simp)
  | cons c cs ih =>
    rw [next_argsig] at h
    by_cases hp : c ∈ strCodes "VZBCSIJDF"
    · rw [if_pos hp] at h
      injection h with h'
      obtain ⟨h1, h2⟩ : [c] = t ∧ cs = rest := by simpa [Prod.mk.injEq] using h'
      subst h1
      subst h2
      rfl
    · rw [if_neg hp] at h
      by_cases hb : c = ch '['
      · rw [if_pos hb] at h
        cases hn : next_argsig cs with
        | error e =>
          rw [hn, except_bind_err] at h
          exact absurd h (by simp)
        | ok p =>
          obtain ⟨d, buff2⟩ := p
          rw [hn, except_bind_ok] at h
          injection h with h'
          obtain ⟨h1, h2⟩ : c :: d = t ∧ buff2 = rest := by simpa [Prod.mk.injEq] using h'
          subst h1
          subst h2
          have := ih _ _ hn
          simp [this]
      · rw [if_neg hb] at h
        by_cases hl : c = ch 'L'
        · rw [if_pos hl] at h
          dsimp only at h
          injection h with h'
          obtain ⟨h1, h2⟩ :
              (c :: cs).take (pyFind (c :: cs) (ch ';') + 1).toNat = t
              ∧ (c :: cs).drop (pyFind (c :: cs) (ch ';') + 1).toNat = rest := by
            simpa [Prod.mk.injEq] using h'
          rw [← h1, ← h2]
          exact List.take_append_drop _ _
        · rw [if_neg hl] at h
          by_cases hpa : c = ch '('
          · rw [if_pos hpa] at h
            dsimp only at h
            injection h with h'
            obtain ⟨h1, h2⟩ :
                (c :: cs).take (pyFind (c :: cs) (ch ')') + 1).toNat = t
                ∧ (c :: cs).drop (pyFind (c :: cs) (ch ')') + 1).toNat = rest := by
              simpa [Prod.mk.injEq] using h'
            rw [← h1, ← h2]
            exact List.take_append_drop _ _
          · rw [if_neg hpa] at h
            exact absurd h (by simp)

/-- Whatever tokens the `_typeseq_iter` loop returns, their concatenation
is the input buffer. -/
theorem typeseqLoop_flatten (fuel : Nat) :
    ∀ s ts, typeseqLoop fuel s = .ok ts → ts.flatten = s := by
  induction fuel with
  | zero =>
    intro s ts h
    cases s with
    | nil =>
      rw [typeseqLoop] at h
      injection h with h'
      subst h'
      rfl
    | cons c cs =>
      rw [typeseqLoop] at h
      exact absurd h (by simp)
  | succ fuel ih =>
    intro s ts h
    cases s with
    | nil =>
      rw [typeseqLoop] at h
      injection h with h'
      subst h'
      rfl
    | cons c cs =>
      rw [typeseqLoop] at h
      cases hn : next_argsig (c :: cs) with
      | error e =>
        rw [hn, except_bind_err] at h
        exact absurd h (by simp)
      | ok p =>
        obtain ⟨t, buff2⟩ := p
        rw [hn, except_bind_ok] at h
        dsimp only at h
        cases hl : typeseqLoop fuel buff2 with
        | error e =>
          rw [hl, except_bind_err] at h
          exact absurd h (by simp)
        | ok ts' =>
          rw [hl, except_bind_ok] at h
          injection h with h'
          subst h'
          have h2 := ih buff2 ts' hl
          have h3 := next_argsig_append (c :: cs) t buff2 hn
          simp [h2]
          exact h3

/-- The `_typeseq_iter` loop consumes a concatenation of valid tokens into
exactly that token list, given fuel exceeding the input length. -/
theorem typeseqLoop_valid (ts : List (List Nat)) (h : ∀ t ∈ ts, ValidTok t) :
    ∀ fuel, ts.flatten.length < fuel → typeseqLoop fuel ts.flatten = .ok ts := by
  induction ts with
  | nil =>
    intro fuel _
    cases fuel <;> rfl
  | cons t ts' ih =>
    intro fuel hfuel
    have hne : t ≠ [] := validTok_ne_nil t (h t (by simp))
    obtain ⟨c, cs, rfl⟩ : ∃ c cs, t = c :: cs := by
      cases t with
      | nil => exact absurd rfl hne
      | cons c cs => exact ⟨c, cs, rfl⟩
    cases fuel with
    | zero => omega
    | succ f =>
      have hflat : ((c :: cs) :: ts').flatten = c :: (cs ++ ts'.flatten) := by
        simp
      rw [hflat, typeseqLoop]
      rw [show c :: (cs ++ ts'.flatten) = (c :: cs) ++ ts'.flatten from by simp]
      rw [next_argsig_valid (c :: cs) (h (c :: cs) (by simp)) ts'.flatten, except_bind_ok]
      dsimp only
      rw [ih (fun t' ht' => h t' (by simp [ht'])) f (by
        have : ((c :: cs) :: ts').flatten.length = cs.length + 1 + ts'.flatten.length := by
          simp
          omega
        omega)]
      rw [except_bind_ok]

/-- C4: tokenizing a valid descriptor string with `_typeseq` succeeds, and
concatenating the produced tokens yields the original string exactly. -/
theorem typeseq_round_trip (s : List Nat) (h : ValidDesc s) :
    ∃ ts, typeseq s = .ok ts ∧ ts.flatten = s := by
  obtain ⟨ts, hts, rfl⟩ := h
  refine ⟨ts, ?_, rfl⟩
  rw [typeseq]
  exact typeseqLoop_valid ts hts (ts.flatten.length + 1) (by omega)

/-- Witness for `typeseq_round_trip` at the method descriptor
"(Ljava/lang/String;[I)V". -/
theorem typeseq_round_trip_witness :
  ∃ ts, typeseq (strCodes "(Ljava/lang/String;[I)V") = .ok ts
    ∧ ts.flatten = strCodes "(Ljava/lang/String;[I)V" := by
  apply typeseq_round_trip
  refine ⟨[ch '(' :: (([ch 'L' :: (strCodes "java/lang/String" ++ [ch ';']),
    ch '[' :: [ch 'I']].flatten) ++ [ch ')']), [ch 'V']], ?_, by decide⟩
  intro t ht
  rcases List.mem_cons.mp ht with rfl | ht'
  · exact ValidTok.group _ (by
      intro t' ht'
      rcases List.mem_cons.mp ht' with rfl | ht''
      · exact ValidTokNP.obj _ (by decide) (by decide)
      · rcases List.mem_singleton.mp ht'' with rfl
        exact ValidTokNP.arr _ (ValidTokNP.prim _ (by decide)))
  · rcases List.mem_singleton.mp ht' with rfl
    exact ValidTok.field _ (ValidTokNP.prim _ (by decide))
